import Mathlib

/-!
# TrashSort — location-resolution and nearest-facility ranking pipeline

Shallow embedding of the pipeline from `src/myapp/views.py` (functions
`_normalize_place_text`, `_address_to_latlng_with_debug`, `_geolocate`,
`_places_nearby`, `_geocode_city_area`, `_distance_matrix`, `find_dumpyards`).

Modelling conventions:
- Python strings are Lean `String` / `List Char`; the model is exact for ASCII
  text (the Python regexes use `[a-z]` with `re.I`, and `\s` / `str.split()`
  are modelled by the ASCII whitespace set).
- Python floats (coordinates) are modelled as `Rat`; JSON integers as `Int`.
- Each outbound HTTP call is a field of an explicit `Env`: a call either
  raises (`CallResult.exn`, covering network errors and malformed JSON) or
  returns a parsed response shape (`CallResult.ok`).
- A Python function that can raise an uncaught exception returns
  `Except String _`; `.error` models the exception propagating.
-/

namespace TrashSort

/-- ASCII whitespace (codes 32, 9, 10, 13, 12, 11), modelling Python's `\s`
and `str.split()` separators. -/
def isPySpace (c : Char) : Bool :=
  c.toNat = 32 || c.toNat = 9 || c.toNat = 10 || c.toNat = 13 ||
    c.toNat = 12 || c.toNat = 11

/-- An ASCII letter (the `(?i)[a-z]` character class and Python
`str.isalpha()` restricted to ASCII). -/
def isAsciiLetter (c : Char) : Bool :=
  (65 ≤ c.toNat && c.toNat ≤ 90) || (97 ≤ c.toNat && c.toNat ≤ 122)

/-- Accumulator-based worker for `pySplit`; `acc` holds the current word
reversed. -/
def pySplitAux : List Char → List Char → List (List Char)
  | [], acc => if acc.isEmpty then [] else [acc.reverse]
  | c :: rest, acc =>
    if isPySpace c then
      if acc.isEmpty then pySplitAux rest []
      else acc.reverse :: pySplitAux rest []
    else pySplitAux rest (c :: acc)

/-- Python `str.split()` with no arguments: split on whitespace runs,
discarding empty pieces. -/
def pySplit (l : List Char) : List (List Char) := pySplitAux l []

/-- Python `" ".join(tokens)`. -/
def joinSp : List (List Char) → List Char
  | [] => []
  | [t] => t
  | t :: ts => t ++ ' ' :: joinSp ts

/-- Python `" ".join(s.strip().split())`: trim and collapse internal whitespace. -/
def collapseWS (l : List Char) : List Char := joinSp (pySplit l)

example : collapseWS "  a   b  ".data = "a b".data := by decide

/-- Case-insensitive ASCII character match (the Python regexes use `re.I`). -/
def chCI (a b : Char) : Bool := a.toLower = b.toLower

/-- Does `l` start with `pat`, case-insensitively? -/
def matchesCI : List Char → List Char → Bool
  | [], _ => true
  | _ :: _, [] => false
  | a :: as, b :: bs => chCI a b && matchesCI as bs

/-- One pass of `re.sub(r"(?i)([a-z])(word)", r"\1 \2", s)`: scanning left to
right, wherever an ASCII letter is immediately followed by `word`
(case-insensitively), insert a space between them; scanning resumes after the
matched word (non-overlapping matches, as in Python `re.sub`).  `fuel` bounds
the recursion; it is faithful whenever `fuel ≥ l.length`. -/
def subJamF (w : List Char) : Nat → List Char → List Char
  | 0, l => l
  | _ + 1, [] => []
  | n + 1, c :: rest =>
    if isAsciiLetter c && matchesCI w rest then
      c :: ' ' :: (rest.take w.length ++ subJamF w n (rest.drop w.length))
    else
      c :: subJamF w n rest

/-- One Python substitution `re.sub(r"(?i)([a-z])(word)", r"\1 \2", s)`. -/
def subJam (w : List Char) (l : List Char) : List Char := subJamF w l.length l

/-- The jammed suffix words of `_normalize_place_text`, in substitution
order. -/
def jamWords : List (List Char) :=
  ["university".data, "college".data, "institute".data, "technology".data,
   "school".data]

/-- Python `re.sub(r"(?i)^lj\s*", "LJ ", s)`: if the string starts with `lj` in any
case, replace that prefix and all whitespace after it by `"LJ "`. -/
def ljSub (l : List Char) : List Char :=
  match l with
  | a :: b :: rest =>
    if chCI a 'l' && chCI b 'j' then
      'L' :: 'J' :: ' ' :: rest.dropWhile (fun c => isPySpace c)
    else l
  | _ => l

/-- Python `re.sub(r"(?i)^(lj)(university)", r"LJ University", s)`. -/
def ljUnivSub (l : List Char) : List Char :=
  if matchesCI "lj".data l && matchesCI "university".data (l.drop 2) then
    "LJ University".data ++ l.drop 12
  else l

/-- Python `str.capitalize()`: first character uppercased, the rest
lowercased (ASCII model). -/
def pyCapitalize : List Char → List Char
  | [] => []
  | c :: cs => c.toUpper :: cs.map Char.toLower

/-- Python `str.isalpha()`: non-empty and all alphabetic (ASCII model). -/
def pyIsAlpha (t : List Char) : Bool := !t.isEmpty && t.all isAsciiLetter

/-- One token of the title-casing loop: tokens of length ≤ 3 that are purely
alphabetic are uppercased, all others are capitalized. -/
def titleTok (t : List Char) : List Char :=
  if t.length ≤ 3 && pyIsAlpha t then t.map Char.toUpper else pyCapitalize t

/-- The body of `_normalize_place_text` on character lists: collapse whitespace, split
jammed institutional suffixes, special-case a leading `lj`, then title-case
token by token. -/
def normTextL (l : List Char) : List Char :=
  let s0 := collapseWS l
  if s0.isEmpty then s0
  else
    let s1 := jamWords.foldl (fun acc w => subJam w acc) s0
    let s2 := ljSub s1
    let s3 := ljUnivSub s2
    joinSp ((pySplit s3).map titleTok)

/-- Function `_normalize_place_text` from `src/myapp/views.py`. -/
def _normalize_place_text (s : String) : String := ⟨normTextL s.data⟩

example : _normalize_place_text "ljuniversity" = "LJ University" := by decide
example : _normalize_place_text "  gujarat  COLLEGE " = "Gujarat College" := by
  decide
example : _normalize_place_text "auniversityuniversity"
    = "A Universityuniversity" := by decide
example :
    _normalize_place_text (_normalize_place_text "auniversityuniversity")
      = "A University University" := by decide

/-- ASCII lowercase map, modelling Python `str.lower()`. -/
def lowerL (l : List Char) : List Char := l.map Char.toLower

/-- Is `pat` an infix of `l` (Python `pat in l`)? -/
def isSubstr (pat : List Char) : List Char → Bool
  | [] => pat.isEmpty
  | c :: rest => List.isPrefixOf pat (c :: rest) || isSubstr pat rest

/-- Python `'india' in s.lower()`. -/
def containsIndia (l : List Char) : Bool := isSubstr "india".data (lowerL l)

/-- The address normalization at the top of `_address_to_latlng_with_debug`
(and of the `city_query` in `_geocode_city_area`): collapse whitespace, then
append `", India"` when non-empty and no `india` is present. -/
def normalizeAddressL (l : List Char) : List Char :=
  let norm := collapseWS l
  if norm.isEmpty then norm
  else if containsIndia norm then norm
  else norm ++ ", India".data

def normalizeAddress (s : String) : String := ⟨normalizeAddressL s.data⟩

/-- The keywords of the area-variant regex in `_geocode_city_area`
(`University|College|Institute|Technology|School`, case-insensitive). -/
def variantKeywords : List (List Char) :=
  ["university".data, "college".data, "institute".data, "technology".data,
   "school".data]

/-- Does `l` start with one of the variant keywords, case-insensitively? -/
def startsKeyword (l : List Char) : Bool :=
  variantKeywords.any (fun w => matchesCI w l)

/-- Worker for `splitVariantL`: `c` is the previous character; insert a space
after it whenever it is a non-digit and a keyword starts right after. -/
def splitVariantAux : Char → List Char → List Char
  | c, [] => [c]
  | c, d :: rest =>
    if !c.isDigit && startsKeyword (d :: rest) then
      c :: ' ' :: splitVariantAux d rest
    else
      c :: splitVariantAux d rest

/-- Python `re.sub(r"(?<=\D)(?=University|College|Institute|Technology|School)", " ",
area, flags=re.I)`: insert a space at every position that is preceded by a
non-digit character and followed by a keyword (zero-width match, so every
inter-character position is inspected; position 0 has no preceding
character). -/
def splitVariantL : List Char → List Char
  | [] => []
  | c :: rest => splitVariantAux c rest

example : splitVariantL "LJUniversity".data = "LJ University".data := by decide
example : splitVariantL "9college".data = "9college".data := by decide

/-- Digit-string accumulator: `some` of the decimal value when every
character is a digit (`some 0` on the empty list), `none` otherwise. -/
def digitsVal (l : List Char) : Option Nat :=
  l.foldl (fun acc c =>
    match acc with
    | none => none
    | some v => if c.isDigit then some (v * 10 + (c.toNat - '0'.toNat)) else none)
    (some 0)

/-- Decimal parsing for Python `float(...)` on the plain-decimal strings this
pipeline passes around: optional sign, digits, optional fractional part.
Other accepted Python spellings (exponents, `inf`, …) do not arise here. -/
def pyFloat (l : List Char) : Option Rat :=
  let sgn : Int := match l.head? with | some '-' => -1 | _ => 1
  let body := match l with
    | '-' :: rest => rest
    | '+' :: rest => rest
    | _ => l
  match body.splitOn '.' with
  | [intPart] =>
    if intPart.isEmpty then none
    else (digitsVal intPart).map (fun n => Rat.divInt (sgn * (n : Int)) 1)
  | [intPart, fracPart] =>
    if intPart.isEmpty && fracPart.isEmpty then none
    else
      match digitsVal intPart, digitsVal fracPart with
      | some i, some f =>
        let k := fracPart.length
        some (Rat.divInt (sgn * ((i * 10 ^ k + f : Nat) : Int)) ((10 ^ k : Nat) : Int))
      | _, _ => none
  | _ => none

/-- Python `float(str(x).strip())` for a string `x`. -/
def pyFloatStr (s : String) : Option Rat :=
  pyFloat ((s.data.dropWhile (fun c => isPySpace c)).reverse.dropWhile
    (fun c => isPySpace c)).reverse

example : pyFloatStr " 23.03 " = some (Rat.divInt 2303 100) := by decide
example : pyFloatStr "-1.5" = some (Rat.divInt (-3) 2) := by decide
example : pyFloatStr "10" = some 10 := by decide
example : pyFloatStr "abc" = none := by decide
example : pyFloatStr "" = none := by decide
example : pyFloatStr "1.2.3" = none := by decide
example : pyFloatStr ".5" = some (Rat.divInt 1 2) := by decide
example : pyFloatStr "-" = none := by decide

/-! ## Provider environment

Each outbound HTTP call either raises an exception (network failure or
malformed JSON body — `requests.*` / `.json()` raising inside the `try`) or
returns a parsed response shape. -/

/-- Outcome of one outbound call. -/
inductive CallResult (α : Type) where
  | exn (msg : String)
  | ok (resp : α)
deriving DecidableEq, Repr

/-- Coordinates `lat`/`lng` read with `.get`, so each may be absent. -/
structure OptLoc where
  lat : Option Rat
  lng : Option Rat
deriving DecidableEq, Repr

/-- Address Validation response: HTTP status, the
`result.verdict.addressComplete` field, and
`result.geocode.location.{latitude,longitude}` (all read with `.get`
chains). -/
structure AVResp where
  httpStatus : Nat
  addressComplete : Option Bool
  lat : Option Rat
  lng : Option Rat
deriving DecidableEq, Repr

/-- One element of `results[]` in a Text Search response; the code reads
`r["geometry"]["location"]` then `.get("lat")`/`.get("lng")`. -/
structure TSResult where
  location : OptLoc
deriving DecidableEq, Repr

/-- Text Search response body. -/
structure TSResp where
  httpStatus : Nat
  status : Option String
  error_message : Option String
  results : List TSResult
deriving DecidableEq, Repr

/-- One element of `candidates[]` in a Find Place response. -/
structure FPCand where
  location : OptLoc
deriving DecidableEq, Repr

/-- Find Place From Text response body. -/
structure FPResp where
  httpStatus : Nat
  status : Option String
  error_message : Option String
  candidates : List FPCand
deriving DecidableEq, Repr

/-- Geolocation response: the code reads `location.get("lat") or
location.get("latitude")` (and similarly for lng), so all four keys are
modelled. -/
structure GeoResp where
  lat : Option Rat
  latitude : Option Rat
  lng : Option Rat
  longitude : Option Rat
deriving DecidableEq, Repr

/-- A nearby-search result (`results[]` of `_places_nearby`): `geometry`
`location` coordinates are read with bracket access (required), the other
fields with `.get`. -/
structure Place where
  name : Option String
  vicinity : Option String
  lat : Rat
  lng : Rat
  place_id : Option String
  rating : Option Rat
deriving DecidableEq, Repr

/-- One element of `rows[0].elements[]` in a Distance Matrix response.
`status` is read with `.get`; `distance`/`duration` `.text`/`.value` with
bracket access, so they are `Option` pairs whose absence raises. -/
structure DMElement where
  status : Option String
  distance : Option (String × Int)
  duration : Option (String × Int)
deriving DecidableEq, Repr

/-- One element of `rows[]`. -/
structure DMRow where
  elements : Option (List DMElement)
deriving DecidableEq, Repr

/-- Distance Matrix response body. -/
structure DMResp where
  rows : Option (List DMRow)
deriving DecidableEq, Repr

/-- Extraction `(data.get("rows") or [{}])[0].get("elements") or []`. -/
def dmElements (resp : DMResp) : List DMElement :=
  match resp.rows with
  | none => []
  | some [] => []
  | some (r :: _) => r.elements.getD []

/-- The external-provider environment: one field per provider endpoint,
keyed by the request parameters the code varies (query text and optional
location bias `(lat, lng, radius)`). -/
structure Env where
  addressValidate : String → CallResult AVResp
  textSearch : String → Option (Rat × Rat × Int) → CallResult TSResp
  findPlace : String → Option (Rat × Rat × Int) → CallResult FPResp
  geolocate : CallResult GeoResp
  placesNearby : Rat → Rat → Int → CallResult (List Place)
  distanceMatrix : Rat × Rat → List (Rat × Rat) → CallResult DMResp

/-! ## Geocoding with debug trail -/

/-- One debug-trail entry (`debug["attempts"]` / `dbg["steps"]` dict).
Outer `Option` on a field means the key is absent from that entry's dict;
for `body_status`/`api_status`/`error_message` the inner `Option` is the
(possibly `None`) value stored under the key. -/
structure Attempt where
  type : String
  status : Option Nat := none
  body_status : Option (Option Bool) := none
  api_status : Option (Option String) := none
  error_message : Option (Option String) := none
  query : Option String := none
  error : Option String := none
deriving DecidableEq, Repr

/-- The `debug` dict of `_address_to_latlng_with_debug`. -/
structure GeoDebug where
  normalized : String
  attempts : List Attempt
deriving DecidableEq, Repr

/-- Fallback 3 of `_address_to_latlng_with_debug`: Find Place from Text. -/
def addrStep3 (env : Env) (norm : String) (acc : List Attempt) :
    Option Rat × Option Rat × GeoDebug :=
  match env.findPlace norm none with
  | .ok r =>
    let a3 : Attempt :=
      { type := "findplace", status := some r.httpStatus,
        api_status := some r.status, error_message := some r.error_message }
    match r.candidates with
    | c :: _ => (c.location.lat, c.location.lng, ⟨norm, acc ++ [a3]⟩)
    | [] => (none, none, ⟨norm, acc ++ [a3]⟩)
  | .exn e =>
    (none, none, ⟨norm, acc ++ [{ type := "findplace", error := some e }]⟩)

/-- Fallback 2 of `_address_to_latlng_with_debug`: Text Search, then Find
Place. -/
def addrStep2 (env : Env) (norm : String) (acc : List Attempt) :
    Option Rat × Option Rat × GeoDebug :=
  match env.textSearch norm none with
  | .ok r =>
    let a2 : Attempt :=
      { type := "textsearch", status := some r.httpStatus,
        api_status := some r.status, error_message := some r.error_message }
    match r.results with
    | t :: _ => (t.location.lat, t.location.lng, ⟨norm, acc ++ [a2]⟩)
    | [] => addrStep3 env norm (acc ++ [a2])
  | .exn e =>
    addrStep3 env norm (acc ++ [{ type := "textsearch", error := some e }])

/-- Function `_address_to_latlng_with_debug` from `src/myapp/views.py`: normalize the
address, then try Address Validation, Text Search and Find Place in order,
recording every attempt; each provider failure is absorbed into the trail. -/
def _address_to_latlng_with_debug (env : Env) (address : String) :
    Option Rat × Option Rat × GeoDebug :=
  let norm := normalizeAddress address
  if norm = "" then (none, none, ⟨norm, []⟩)
  else
    -- 1) Address Validation
    match env.addressValidate norm with
    | .ok r =>
      let a1 : Attempt :=
        { type := "addressvalidation", status := some r.httpStatus,
          body_status := some r.addressComplete }
      match r.lat, r.lng with
      | some la, some ln => (some la, some ln, ⟨norm, [a1]⟩)
      | _, _ => addrStep2 env norm [a1]
    | .exn e =>
      addrStep2 env norm [{ type := "addressvalidation", error := some e }]

/-- Function `_geolocate`: Geolocation API estimate, `(lat, lng)` or `(None, None)`;
note the Python `or` between the `lat`/`latitude` (and `lng`/`longitude`)
keys, under which a `0.0` value falls through to the alternative. -/
def _geolocate (env : Env) : Option Rat × Option Rat :=
  match env.geolocate with
  | .exn _ => (none, none)
  | .ok r =>
    let la := match r.lat with
      | some x => if x = 0 then r.latitude else some x
      | none => r.latitude
    let ln := match r.lng with
      | some x => if x = 0 then r.longitude else some x
      | none => r.longitude
    match la, ln with
    | some a, some b => (some a, some b)
    | _, _ => (none, none)

/-- The fixed keyword filter of `_places_nearby`. -/
def nearbyKeyword : String :=
  "waste management center|dump yard|dumping site|landfill|garbage depot|recycling center|recycle|municipal waste|solid waste"

/-- Function `_places_nearby`: one nearby-search call (no `try`, so an exception
propagates to the caller); returns `results` or `[]` when the key is
absent. -/
def _places_nearby (env : Env) (lat lng : Rat) (radius_m : Int := 15000) :
    Except String (List Place) :=
  match env.placesNearby lat lng radius_m with
  | .exn e => .error e
  | .ok results => .ok results

/-- The `, India` suffix bias applied to `city_query` in
`_geocode_city_area` (no re-collapse there, unlike the address path). -/
def addIndia (s : String) : String :=
  if s ≠ "" && !containsIndia s.data then s ++ ", India" else s

/-- The `dbg` dict of `_geocode_city_area`: original inputs plus the step
trail. -/
structure CityDbg where
  city : Option String
  area : Option String
  steps : List Attempt
deriving DecidableEq, Repr

/-- City-stage fallback: when Text Search left either coordinate `None`, try
Address Validation on the city query (overwriting both coordinates on a
response, keeping the old ones on an exception). -/
def cityAVFallback (env : Env) (cq : String) (cla clg : Option Rat)
    (acc : List Attempt) : (Option Rat × Option Rat) × List Attempt :=
  if cla = none ∨ clg = none then
    match env.addressValidate cq with
    | .ok r =>
      ((r.lat, r.lng),
        acc ++ [{ type := "city_addressvalidation", status := some r.httpStatus }])
    | .exn e =>
      ((cla, clg),
        acc ++ [{ type := "city_addressvalidation", error := some e }])
  else ((cla, clg), acc)

/-- The `for av in area_variants` loop: Find Place with a
`circle:30000@city` location bias for each variant, returning the first
candidate's location. -/
def areaFPLoop (env : Env) (cl cg : Rat) :
    List String → List Attempt →
      Option (Option Rat × Option Rat) × List Attempt
  | [], acc => (none, acc)
  | av :: rest, acc =>
    match env.findPlace av (some (cl, cg, 30000)) with
    | .ok r =>
      let st : Attempt :=
        { type := "area_findplace", query := some av,
          status := some r.httpStatus, api_status := some r.status,
          error_message := some r.error_message }
      match r.candidates with
      | c :: _ => (some (c.location.lat, c.location.lng), acc ++ [st])
      | [] => areaFPLoop env cl cg rest (acc ++ [st])
    | .exn e =>
      areaFPLoop env cl cg rest
        (acc ++ [{ type := "area_findplace", query := some av, error := some e }])

/-- Refinement fallback 3: Text Search on `"area, city"` with a
location+radius (40000) bias; falls through to the city coordinate. -/
def areaTSBias (env : Env) (cl cg : Rat) (q : String)
    (acc : List Attempt) (dbg : List Attempt → CityDbg) :
    Option Rat × Option Rat × CityDbg :=
  match env.textSearch q (some (cl, cg, 40000)) with
  | .ok r =>
    let st : Attempt :=
      { type := "area_textsearch_bias", query := some q,
        status := some r.httpStatus, api_status := some r.status,
        error_message := some r.error_message }
    match r.results with
    | t :: _ => (t.location.lat, t.location.lng, dbg (acc ++ [st]))
    | [] => (some cl, some cg, dbg (acc ++ [st]))
  | .exn e =>
    (some cl, some cg,
      dbg (acc ++ [{ type := "area_textsearch_bias", query := some q, error := some e }]))

/-- Refinement fallback 2: Address Validation on `"area, city"`, then the
biased Text Search. -/
def areaAVStep (env : Env) (cl cg : Rat) (q : String)
    (acc : List Attempt) (dbg : List Attempt → CityDbg) :
    Option Rat × Option Rat × CityDbg :=
  match env.addressValidate q with
  | .ok r =>
    let acc' := acc ++ [{ type := "area_addressvalidation", status := some r.httpStatus }]
    match r.lat, r.lng with
    | some la, some ln => (some la, some ln, dbg acc')
    | _, _ => areaTSBias env cl cg q acc' dbg
  | .exn e =>
    areaTSBias env cl cg q
      (acc ++ [{ type := "area_addressvalidation", error := some e }]) dbg

/-- Function `_geocode_city_area` from `src/myapp/views.py`: resolve the city center
(Text Search, then Address Validation), then refine with the area (Find
Place with bias over the variant list, Address Validation of
`"area, city"`, biased Text Search), falling back to the city coordinate
when every refinement attempt fails. -/
def _geocode_city_area (env : Env) (city0 area0 : Option String) :
    Option Rat × Option Rat × CityDbg :=
  let dbg : List Attempt → CityDbg := fun steps => ⟨city0, area0, steps⟩
  let city := _normalize_place_text (city0.getD "")
  let area := _normalize_place_text (area0.getD "")
  if city = "" && area = "" then (none, none, dbg [])
  else
    let city_query := addIndia (if city ≠ "" then city else area)
    -- 1) city center via Text Search
    let tsOut : (Option Rat × Option Rat) × List Attempt :=
      match env.textSearch city_query none with
      | .ok r =>
        let st : Attempt :=
          { type := "city_textsearch", status := some r.httpStatus,
            api_status := some r.status, error_message := some r.error_message }
        match r.results with
        | t :: _ => ((t.location.lat, t.location.lng), [st])
        | [] => ((none, none), [st])
      | .exn e => ((none, none), [{ type := "city_textsearch", error := some e }])
    let avOut := cityAVFallback env city_query tsOut.1.1 tsOut.1.2 tsOut.2
    match avOut.1.1, avOut.1.2 with
    | some cl, some cg =>
      if area = "" then (some cl, some cg, dbg avOut.2)
      else
        -- 2) refine with area variants
        let variants :=
          [area] ++
            (if area ≠ "" && !area.data.contains ' '
             then [(⟨splitVariantL area.data⟩ : String)] else [])
        let fpOut := areaFPLoop env cl cg (variants.filter (fun v => v ≠ "")) avOut.2
        match fpOut.1 with
        | some (la, ln) => (la, ln, dbg fpOut.2)
        | none =>
          let full_line := if city ≠ "" then area ++ ", " ++ city else area
          areaAVStep env cl cg full_line fpOut.2 dbg
    | _, _ => (none, none, dbg avOut.2)

/-! ## Distance Matrix ranking -/

/-- One entry of the `paired` list built by `_distance_matrix`. -/
structure RankedPlace where
  name : Option String
  address : String
  lat : Rat
  lng : Rat
  distance_text : String
  distance_value : Int
  duration_text : String
  duration_value : Int
  place_id : Option String
  rating : Option Rat
deriving DecidableEq, Repr

/-- The dict appended to `paired` for one `"OK"` element: candidate fields
plus the element's distance/duration text and value. -/
def mkRanked (p : Place) (d u : String × Int) : RankedPlace :=
  { name := p.name, address := p.vicinity.getD "",
    lat := p.lat, lng := p.lng,
    distance_text := d.1, distance_value := d.2,
    duration_text := u.1, duration_value := u.2,
    place_id := p.place_id, rating := p.rating }

/-- The pairing loop of `_distance_matrix` (`for idx, el in
enumerate(elements)`): keep only elements with per-element status `"OK"`,
pairing each with `places[idx]`; a missing index or missing
`distance`/`duration` record raises (bracket access). -/
def pairElems (places : List Place) : Nat → List DMElement →
    Except String (List RankedPlace)
  | _, [] => .ok []
  | idx, el :: rest =>
    if el.status = some "OK" then
      match places[idx]?, el.distance, el.duration with
      | some p, some d, some u =>
        match pairElems places (idx + 1) rest with
        | .ok l => .ok (mkRanked p d u :: l)
        | .error e => .error e
      | none, _, _ => .error "IndexError: places"
      | _, none, _ => .error "KeyError: distance"
      | _, _, none => .error "KeyError: duration"
    else pairElems places (idx + 1) rest

/-- The two-key sort key comparison of
`paired.sort(key=lambda x: (x["duration_value"], x["distance_value"]))`:
lexicographic ≤ on (duration seconds, distance meters). -/
def leKey (a b : RankedPlace) : Bool :=
  a.duration_value < b.duration_value ||
    (a.duration_value == b.duration_value &&
      a.distance_value ≤ b.distance_value)

/-- Stable insertion into a sorted list: the new element goes before the
first element it is `leKey`-below-or-equal, hence after nothing it ties
with that came earlier. -/
def insSorted (a : RankedPlace) : List RankedPlace → List RankedPlace
  | [] => [a]
  | b :: l => if leKey a b then a :: b :: l else b :: insSorted a l

/-- Stable sort by (duration, distance), modelling Python's stable
`list.sort` with the two-component key. -/
def sortRanked : List RankedPlace → List RankedPlace
  | [] => []
  | a :: l => insSorted a (sortRanked l)

/-- Function `_distance_matrix` from `src/myapp/views.py`: empty candidate list short
circuits without a provider call; otherwise one batched request, the pairing
loop, and the stable two-key sort. -/
def _distance_matrix (env : Env) (origin_lat origin_lng : Rat)
    (places : List Place) : Except String (List RankedPlace) :=
  if places.isEmpty then .ok []
  else
    match env.distanceMatrix (origin_lat, origin_lng)
        (places.map (fun p => (p.lat, p.lng))) with
    | .exn e => .error e
    | .ok data =>
      match pairElems places 0 (dmElements data) with
      | .ok paired => .ok (sortRanked paired)
      | .error e => .error e

/-! ## Orchestrator: `find_dumpyards` -/

/-- A Python value flowing through the `lat`/`lng` variables of
`find_dumpyards`: `None`, a query-string value, or a float from
geocoding. -/
inductive PyVal where
  | none
  | str (s : String)
  | num (q : Rat)
deriving DecidableEq, Repr

/-- Python truthiness for the values above (`""` and `0.0` are falsy). -/
def PyVal.truthy : PyVal → Bool
  | .none => false
  | .str s => s ≠ ""
  | .num q => q ≠ 0

/-- A `request.GET.get(...)` value as a `PyVal`. -/
def pyValOfOptStr : Option String → PyVal
  | Option.none => .none
  | some s => .str s

/-- A geocoding result component as a `PyVal`. -/
def pyValOfOptRat : Option Rat → PyVal
  | Option.none => .none
  | some q => .num q

/-- Python `float(str(v).strip())`, `none` when it raises `ValueError`
(`str(None) = "None"` never parses; `float(str(x))` round-trips a float). -/
def PyVal.toFloat : PyVal → Option Rat
  | .none => Option.none
  | .str s => pyFloatStr s
  | .num q => some q

/-- Truthiness of an optional float (used for the `_geolocate` results). -/
def ratTruthy : Option Rat → Bool
  | some x => x ≠ 0
  | Option.none => false

/-- The request parameters `find_dumpyards` reads. -/
structure Request where
  address : Option String := none
  lat : Option String := none
  lng : Option String := none
  city : Option String := none
  area : Option String := none
deriving DecidableEq, Repr

/-- The JSON body (plus HTTP status) of a `find_dumpyards` response.  A
field with value `none` models a key absent from the response dict; for
`nearest` the inner `Option` is the possibly-`null` stored value. -/
structure DumpResponse where
  status : Nat := 200
  error : Option String := none
  hint : Option String := none
  address_tried : Option String := none
  city : Option String := none
  area : Option String := none
  geocode_debug_addr : Option GeoDebug := none
  geocode_debug_city : Option CityDbg := none
  origin : Option (Rat × Rat) := none
  places : Option (List RankedPlace) := none
  nearest : Option (Option RankedPlace) := none
deriving DecidableEq, Repr

/-- The fixed user-facing hint of the resolution-failure response. -/
def hintText : String :=
  "Ensure GOMAPS_PRO_API_KEY is set and valid. Try a fuller address like 'LJ University, Ahmedabad'."

/-- Outcome of the input-resolution phase of `find_dumpyards` (everything
before `_places_nearby`): either an early JSON response or origin
coordinates. -/
inductive ResolveOut where
  | err (resp : DumpResponse)
  | okc (lat lng : Rat)
deriving DecidableEq, Repr

/-- The input-resolution phase of `find_dumpyards`: pick the input kind
(`if address: ... elif (city or area) and not (lat and lng): ...`), fall
back to `_geolocate`, emit the 400 responses, and parse the final
coordinates with `float(...)`. -/
def resolveOriginPhase (env : Env) (req : Request) : ResolveOut :=
  let addrT := (pyValOfOptStr req.address).truthy
  let latT := (pyValOfOptStr req.lat).truthy
  let lngT := (pyValOfOptStr req.lng).truthy
  let cityT := (pyValOfOptStr req.city).truthy
  let areaT := (pyValOfOptStr req.area).truthy
  -- lat/lng after the input-kind dispatch, plus the bound debug dicts
  let branch : PyVal × PyVal × Option GeoDebug × Option CityDbg :=
    if addrT then
      let r := _address_to_latlng_with_debug env (req.address.getD "")
      (pyValOfOptRat r.1, pyValOfOptRat r.2.1, some r.2.2, Option.none)
    else if (cityT || areaT) && !(latT && lngT) then
      let r := _geocode_city_area env req.city req.area
      (pyValOfOptRat r.1, pyValOfOptRat r.2.1, Option.none, some r.2.2)
    else
      (pyValOfOptStr req.lat, pyValOfOptStr req.lng, Option.none, Option.none)
  let lat := branch.1
  let lng := branch.2.1
  let next : PyVal × PyVal ⊕ DumpResponse :=
    if !(lat.truthy && lng.truthy) then
      let g := _geolocate env
      if ratTruthy g.1 && ratTruthy g.2 then
        .inl (pyValOfOptRat g.1, pyValOfOptRat g.2)
      else
        .inr { status := 400,
               error := some "Please provide a valid address or lat/lng.",
               address_tried := some (req.address.getD ""),
               city := some (req.city.getD ""),
               area := some (req.area.getD ""),
               hint := some hintText,
               geocode_debug_addr := if addrT then branch.2.2.1 else Option.none,
               geocode_debug_city :=
                 if !addrT && (cityT || areaT) then branch.2.2.2 else Option.none }
    else .inl (lat, lng)
  match next with
  | .inr resp => .err resp
  | .inl (la, ln) =>
    match la.toFloat, ln.toFloat with
    | some lf, some gf => .okc lf gf
    | _, _ => .err { status := 400, error := some "Invalid coordinates." }

/-- Function `find_dumpyards` from `src/myapp/views.py`: resolve the origin, search
nearby facilities, rank them; `Except.error` models an uncaught exception
escaping the view. -/
def find_dumpyards (env : Env) (req : Request) : Except String DumpResponse :=
  match resolveOriginPhase env req with
  | .err resp => .ok resp
  | .okc la ln =>
    match _places_nearby env la ln 15000 with
    | .error e => .error e
    | .ok candidates =>
      if candidates.isEmpty then
        .ok { status := 200, origin := some (la, ln), places := some [] }
      else
        match _distance_matrix env la ln candidates with
        | .error e => .error e
        | .ok ranked =>
          .ok { status := 200, origin := some (la, ln),
                places := some ranked, nearest := some ranked.head? }

/-! ## Claim theorems -/

/-- C5: for every address whose Address Validation attempt fails (the call
raises, e.g. a network failure or malformed response) and whose Text Search
attempt succeeds, `_address_to_latlng_with_debug` returns the Text Search
coordinate, absorbs the failure instead of propagating it, and the debug
trail has exactly two entries with the first marked failed (its `error` key
recording the provider failure). -/
theorem addr_fallback_second_provider
    (env : Env) (address e : String) (ts : TSResp) (t : TSResult)
    (rest : List TSResult)
    (hnorm : normalizeAddress address ≠ "")
    (hav : env.addressValidate (normalizeAddress address) = .exn e)
    (hts : env.textSearch (normalizeAddress address) none = .ok ts)
    (hres : ts.results = t :: rest) :
    _address_to_latlng_with_debug env address =
      (t.location.lat, t.location.lng,
        ⟨normalizeAddress address,
         [{ type := "addressvalidation", error := some e },
          { type := "textsearch", status := some ts.httpStatus,
            api_status := some ts.status,
            error_message := some ts.error_message }]⟩) ∧
    (_address_to_latlng_with_debug env address).2.2.attempts.length = 2 ∧
    ((_address_to_latlng_with_debug env address).2.2.attempts.head?.map
      (fun a => a.type = "addressvalidation" ∧ a.error.isSome)) =
        some (True ∧ True) := by
  have h1 : _address_to_latlng_with_debug env address =
      (t.location.lat, t.location.lng,
        ⟨normalizeAddress address,
         [{ type := "addressvalidation", error := some e },
          { type := "textsearch", status := some ts.httpStatus,
            api_status := some ts.status,
            error_message := some ts.error_message }]⟩) := by
    unfold _address_to_latlng_with_debug addrStep2
    rw [if_neg hnorm]
    simp only [hav, hts, hres, List.singleton_append]
  refine ⟨h1, ?_, ?_⟩ <;> rw [h1] <;> simp

/-- An environment where every provider call raises. -/
def exnEnv : Env where
  addressValidate := fun _ => .exn "conn"
  textSearch := fun _ _ => .exn "conn"
  findPlace := fun _ _ => .exn "conn"
  geolocate := .exn "conn"
  placesNearby := fun _ _ _ => .exn "conn"
  distanceMatrix := fun _ _ => .exn "conn"

/-- Text Search response with one result at (23, 72). -/
def tsRespC5 : TSResp :=
  { httpStatus := 200, status := some "OK", error_message := none,
    results := [⟨⟨some 23, some 72⟩⟩] }

/-- Environment for the C5 witness: Address Validation raises, Text Search
answers. -/
def envC5 : Env := { exnEnv with textSearch := fun _ _ => .ok tsRespC5 }

/-- Witness for C5 at address `"Ahmedabad"`. -/
theorem addr_fallback_second_provider_witness :
    _address_to_latlng_with_debug envC5 "Ahmedabad" =
      (some 23, some 72,
        ⟨"Ahmedabad, India",
         [{ type := "addressvalidation", error := some "conn" },
          { type := "textsearch", status := some 200,
            api_status := some (some "OK"), error_message := some none }]⟩) ∧
    (_address_to_latlng_with_debug envC5 "Ahmedabad").2.2.attempts.length = 2 := by
  have h := addr_fallback_second_provider envC5 "Ahmedabad" "conn" tsRespC5
    ⟨⟨some 23, some 72⟩⟩ [] (by decide) rfl rfl rfl
  exact ⟨h.1, h.2.1⟩

/-- A Find Place attempt that fails: the call raises, or returns no
candidate. -/
def fpFails : CallResult FPResp → Prop
  | .exn _ => True
  | .ok r => r.candidates = []

/-- An Address Validation attempt that fails: the call raises, or the
response lacks a latitude or longitude. -/
def avNoCoord : CallResult AVResp → Prop
  | .exn _ => True
  | .ok r => r.lat = none ∨ r.lng = none

/-- A Text Search attempt that fails: the call raises, or returns no
results. -/
def tsNoResult : CallResult TSResp → Prop
  | .exn _ => True
  | .ok r => r.results = []

/-- When every biased Find Place call fails, the variant loop finds
nothing. -/
theorem areaFPLoop_none (env : Env) (cl cg : Rat)
    (h : ∀ q, fpFails (env.findPlace q (some (cl, cg, 30000)))) :
    ∀ vs acc, (areaFPLoop env cl cg vs acc).1 = none := by
  intro vs
  induction vs with
  | nil => intro acc; rfl
  | cons v rest ih =>
    intro acc
    have hv := h v
    unfold areaFPLoop
    cases hfp : env.findPlace v (some (cl, cg, 30000)) with
    | exn e => exact ih _
    | ok r =>
      rw [hfp] at hv
      simp only [fpFails] at hv
      simp only [hv]
      exact ih _

/-- When the biased Text Search fails, `areaTSBias` falls back to the city
coordinate. -/
theorem areaTSBias_fallback (env : Env) (cl cg : Rat) (q : String)
    (acc : List Attempt) (dbg : List Attempt → CityDbg)
    (h : tsNoResult (env.textSearch q (some (cl, cg, 40000)))) :
    (areaTSBias env cl cg q acc dbg).1 = some cl ∧
      (areaTSBias env cl cg q acc dbg).2.1 = some cg := by
  unfold areaTSBias
  cases hts : env.textSearch q (some (cl, cg, 40000)) with
  | exn e => simp
  | ok r =>
    rw [hts] at h
    simp only [tsNoResult] at h
    simp [h]

/-- When the `"area, city"` Address Validation and the biased Text Search
both fail, the refinement tail falls back to the city coordinate. -/
theorem areaAVStep_fallback (env : Env) (cl cg : Rat) (q : String)
    (acc : List Attempt) (dbg : List Attempt → CityDbg)
    (hav : avNoCoord (env.addressValidate q))
    (hts : tsNoResult (env.textSearch q (some (cl, cg, 40000)))) :
    (areaAVStep env cl cg q acc dbg).1 = some cl ∧
      (areaAVStep env cl cg q acc dbg).2.1 = some cg := by
  unfold areaAVStep
  cases hr : env.addressValidate q with
  | exn e =>
    simp only []
    exact areaTSBias_fallback env cl cg q _ dbg hts
  | ok r =>
    rw [hr] at hav
    simp only [avNoCoord] at hav
    simp only []
    rcases hla : r.lat with _ | la <;> rcases hlg : r.lng with _ | lg <;>
      simp only [hla, hlg]
    · exact areaTSBias_fallback env cl cg q _ dbg hts
    · exact areaTSBias_fallback env cl cg q _ dbg hts
    · exact areaTSBias_fallback env cl cg q _ dbg hts
    · exfalso; rw [hla, hlg] at hav
      rcases hav with h | h <;> exact Option.noConfusion h

/-- C6: for every (city, area) input whose city stage resolves (here via the
city Text Search) and whose area-refinement attempts (every biased Find
Place call, Address Validation on "area, city", the biased Text Search) all
fail, `_geocode_city_area` returns the city coordinate rather than
failing. -/
theorem city_area_falls_back_to_city
    (env : Env) (c a : String) (ctr : TSResp) (t : TSResult)
    (rest : List TSResult) (cl cg : Rat)
    (hc : _normalize_place_text c ≠ "")
    (ha : _normalize_place_text a ≠ "")
    (hts : env.textSearch (addIndia (_normalize_place_text c)) none = .ok ctr)
    (hres : ctr.results = t :: rest)
    (hlat : t.location.lat = some cl)
    (hlng : t.location.lng = some cg)
    (hfp : ∀ q, fpFails (env.findPlace q (some (cl, cg, 30000))))
    (hav : avNoCoord (env.addressValidate
      (_normalize_place_text a ++ ", " ++ _normalize_place_text c)))
    (htsb : tsNoResult (env.textSearch
      (_normalize_place_text a ++ ", " ++ _normalize_place_text c)
      (some (cl, cg, 40000)))) :
    (_geocode_city_area env (some c) (some a)).1 = some cl ∧
      (_geocode_city_area env (some c) (some a)).2.1 = some cg := by
  unfold _geocode_city_area
  simp only [Option.getD_some, hc, ha, decide_False, Bool.and_self,
    Bool.false_eq_true, if_false]
  have hne : (if _normalize_place_text c ≠ "" then _normalize_place_text c
      else _normalize_place_text a) = _normalize_place_text c := if_pos hc
  rw [hne, hts]
  simp only [hres, hlat, hlng]
  unfold cityAVFallback
  rw [if_neg (by simp)]
  simp only []
  rw [areaFPLoop_none env cl cg hfp]
  simp only []
  have hfl : (if _normalize_place_text c ≠ ""
      then _normalize_place_text a ++ ", " ++ _normalize_place_text c
      else _normalize_place_text a)
      = _normalize_place_text a ++ ", " ++ _normalize_place_text c := if_pos hc
  rw [hfl]
  exact areaAVStep_fallback env cl cg _ _ _ hav htsb

/-- Text Search response used by the C6 witness city stage. -/
def tsRespC6 : TSResp :=
  { httpStatus := 200, status := some "OK", error_message := none,
    results := [⟨⟨some 23, some 72⟩⟩] }

/-- Environment for the C6 witness: only the unbiased city Text Search
answers; every other call raises. -/
def envC6 : Env :=
  { exnEnv with
    textSearch := fun q b =>
      if q = "Ahmedabad, India" && b.isNone then .ok tsRespC6
      else .exn "conn" }

/-- Witness for C6 at city `"Ahmedabad"`, area `"Navrangpura"`. -/
theorem city_area_falls_back_to_city_witness :
    (_geocode_city_area envC6 (some "Ahmedabad") (some "Navrangpura")).1 = some 23 ∧
      (_geocode_city_area envC6 (some "Ahmedabad") (some "Navrangpura")).2.1 = some 72 :=
  city_area_falls_back_to_city envC6 "Ahmedabad" "Navrangpura" tsRespC6
    ⟨⟨some 23, some 72⟩⟩ [] 23 72 (by decide) (by decide) rfl rfl rfl rfl
    (fun _ => trivial) trivial trivial

/-- C7: for every request whose origin resolves to a coordinate and whose
nearby search returns zero results, `find_dumpyards` returns a success
response (HTTP 200, no error key) whose places list is empty. -/
theorem nearby_empty_is_success (env : Env) (req : Request) (la ln : Rat)
    (hres : resolveOriginPhase env req = .okc la ln)
    (hnb : env.placesNearby la ln 15000 = .ok []) :
    find_dumpyards env req =
      .ok { status := 200, error := none, origin := some (la, ln),
            places := some [] } := by
  unfold find_dumpyards _places_nearby
  rw [hres]
  simp only []
  rw [hnb]
  simp

/-- Environment whose nearby search finds nothing and whose other calls
raise. -/
def envNearbyEmpty : Env := { exnEnv with placesNearby := fun _ _ _ => .ok [] }

/-- Request giving explicit coordinates only. -/
def reqLatLng : Request := { lat := some "10", lng := some "20" }

/-- Witness for C7 at explicit coordinates (10, 20). -/
theorem nearby_empty_is_success_witness :
    find_dumpyards envNearbyEmpty reqLatLng =
      .ok { status := 200, error := none, origin := some (10, 20),
            places := some [] } :=
  nearby_empty_is_success envNearbyEmpty reqLatLng 10 20 (by decide) rfl

/-- Every early (`Errored`) response of the resolution phase carries an
`error` key. -/
theorem resolveOriginPhase_err_error (env : Env) (req : Request)
    (resp : DumpResponse)
    (h : resolveOriginPhase env req = .err resp) : resp.error.isSome := by
  unfold resolveOriginPhase at h
  simp only [] at h
  split at h
  next r heq =>
    cases h
    repeat' split at heq
    all_goals
      first
        | (injection heq with heq2; rw [← heq2]; rfl)
        | exact absurd heq (by simp)
  next la ln heq =>
    split at h
    · exact absurd h (by simp)
    · rw [ResolveOut.err.injEq] at h
      rw [← h]
      rfl

/-- C2 (amended): every success response of `find_dumpyards` contains
`origin` and `places`; the `nearest` key is present exactly on the path
where the candidate search was non-empty, and whenever `places` is
non-empty, `nearest` is its element 0.  (The claim as written fails: the
zero-candidate success response has no `nearest` key, see the
counterexample.) -/
theorem success_response_shape (env : Env) (req : Request) (r : DumpResponse)
    (hok : find_dumpyards env req = .ok r) (hsucc : r.error = none) :
    r.origin.isSome ∧ r.places.isSome ∧
      (∀ p rest, r.places = some (p :: rest) → r.nearest = some (some p)) := by
  unfold find_dumpyards at hok
  split at hok
  next resp heq =>
    rw [Except.ok.injEq] at hok
    have herr := resolveOriginPhase_err_error env req resp heq
    rw [hok, hsucc] at herr
    exact absurd herr (by simp)
  next la ln heq =>
    split at hok
    · exact absurd hok (by simp)
    next candidates hnb =>
      split at hok
      · rw [Except.ok.injEq] at hok
        rw [← hok]
        refine ⟨rfl, rfl, ?_⟩
        intro p rest hp
        simp at hp
      · split at hok
        · exact absurd hok (by simp)
        next ranked hdm =>
          rw [Except.ok.injEq] at hok
          rw [← hok]
          refine ⟨rfl, rfl, ?_⟩
          intro p rest hp
          simp only [Option.some.injEq] at hp
          rw [hp]
          rfl

/-- C2 counterexample: a request that succeeds (status 200, no error key)
with an empty places list — the response dict `{"origin": ..., "places": []}`
of the zero-candidate path — has no `nearest` key at all, refuting "every
successful result contains ... a nearest field". -/
theorem success_without_nearest_counterexample :
    find_dumpyards envNearbyEmpty reqLatLng =
      .ok { status := 200, error := none, origin := some (10, 20),
            places := some [] } ∧
    ({ status := 200, error := none, origin := some (10, 20),
       places := some [] } : DumpResponse).nearest = none := by
  constructor
  · rfl
  · rfl

/-- A nearby-search candidate for the full-success environment. -/
def placeA : Place :=
  { name := some "Yard A", vicinity := some "Street 1", lat := 11, lng := 21,
    place_id := some "a", rating := none }

/-- Distance Matrix response pairing `placeA` with 1000 m / 600 s. -/
def dmRespA : DMResp :=
  { rows := some [⟨some [⟨some "OK", some ("1 km", 1000), some ("10 mins", 600)⟩]⟩] }

/-- Environment producing one ranked facility. -/
def envFull : Env :=
  { exnEnv with
    placesNearby := fun _ _ _ => .ok [placeA]
    distanceMatrix := fun _ _ => .ok dmRespA }

/-- The ranked entry produced from `placeA` and `dmRespA`. -/
def rankedA : RankedPlace :=
  { name := some "Yard A", address := "Street 1", lat := 11, lng := 21,
    distance_text := "1 km", distance_value := 1000,
    duration_text := "10 mins", duration_value := 600,
    place_id := some "a", rating := none }

/-- The full-success response of `envFull` from explicit coordinates. -/
def respFull : DumpResponse :=
  { status := 200, origin := some (10, 20), places := some [rankedA],
    nearest := some (some rankedA) }

/-- Witness for C2 (amended) on a one-facility success. -/
theorem success_response_shape_witness :
    respFull.origin.isSome ∧ respFull.places.isSome ∧
      (∀ p rest, respFull.places = some (p :: rest) →
        respFull.nearest = some (some p)) :=
  success_response_shape envFull reqLatLng respFull rfl rfl

/-- C1 (amended): when a request supplies a non-empty address, the origin is
resolved by geocoding the address — the effective input priority is
address > explicit coordinates > (city, area), so explicit `lat`/`lng`
supplied alongside an address are ignored.  (The claim as written — explicit
coordinates take priority over the address — fails, see the
counterexample.) -/
theorem address_priority_over_coords (env : Env) (req : Request) (s : String)
    (la ln : Rat) (d : GeoDebug)
    (haddr : req.address = some s) (hs : s ≠ "")
    (hgeo : _address_to_latlng_with_debug env s = (some la, some ln, d))
    (hla : la ≠ 0) (hln : ln ≠ 0) :
    resolveOriginPhase env req = .okc la ln := by
  unfold resolveOriginPhase
  rw [haddr]
  simp only [pyValOfOptStr, PyVal.truthy, hs, Option.getD_some, hgeo,
    pyValOfOptRat, decide_not, hla, hln, decide_False, Bool.not_false,
    Bool.and_self, Bool.not_true, Bool.false_eq_true, if_false, if_true,
    PyVal.toFloat]

/-- Address Validation response placing the geocoded address at (30, 40). -/
def avRespC1 : AVResp :=
  { httpStatus := 200, addressComplete := some true,
    lat := some 30, lng := some 40 }

/-- Environment for C1: Address Validation answers (30, 40); nearby search
is empty so the request succeeds. -/
def envC1 : Env :=
  { exnEnv with
    addressValidate := fun _ => .ok avRespC1
    placesNearby := fun _ _ _ => .ok [] }

/-- Request supplying both an address and explicit coordinates
`lat=10&lng=20`. -/
def reqC1 : Request :=
  { address := some "Gota", lat := some "10", lng := some "20" }

/-- C1 counterexample: a request with both explicit coordinates (10, 20) and
an address geocoding to (30, 40) resolves its origin to (30, 40) — the
address result, not the explicit coordinates, even though they parse. -/
theorem address_overrides_explicit_coords_counterexample :
    find_dumpyards envC1 reqC1 =
      .ok { status := 200, error := none, origin := some (30, 40),
            places := some [] } ∧
    pyFloatStr "10" = some 10 ∧ pyFloatStr "20" = some 20 ∧
    ((30 : Rat), (40 : Rat)) ≠ ((10 : Rat), (20 : Rat)) := by
  refine ⟨rfl, by decide, by decide, by decide⟩

/-- Witness for C1 (amended) at `envC1`/`reqC1`. -/
theorem address_priority_over_coords_witness :
    resolveOriginPhase envC1 reqC1 = .okc 30 40 :=
  address_priority_over_coords envC1 reqC1 "Gota" 30 40
    ⟨"Gota, India",
     [{ type := "addressvalidation", status := some 200,
        body_status := some (some true) }]⟩
    rfl (by decide) rfl (by decide) (by decide)

/-- The propositional form of the two-key sort order: ascending duration,
ties broken by ascending distance. -/
def lexLE (a b : RankedPlace) : Prop :=
  a.duration_value < b.duration_value ∨
    (a.duration_value = b.duration_value ∧ a.distance_value ≤ b.distance_value)

theorem leKey_eq_true_iff (a b : RankedPlace) : leKey a b = true ↔ lexLE a b := by
  simp [leKey, lexLE]

theorem lexLE_total (a b : RankedPlace) : lexLE a b ∨ lexLE b a := by
  unfold lexLE
  omega

theorem lexLE_trans {a b c : RankedPlace} (h1 : lexLE a b) (h2 : lexLE b c) :
    lexLE a c := by
  unfold lexLE at *
  omega

theorem insSorted_perm (a : RankedPlace) (l : List RankedPlace) :
    List.Perm (insSorted a l) (a :: l) := by
  induction l with
  | nil => exact List.Perm.refl _
  | cons b t ih =>
    unfold insSorted
    by_cases h : leKey a b = true
    · rw [if_pos h]
    · rw [if_neg h]
      exact List.Perm.trans (List.Perm.cons b ih) (List.Perm.swap a b t)

theorem mem_insSorted {x a : RankedPlace} {l : List RankedPlace}
    (h : x ∈ insSorted a l) : x = a ∨ x ∈ l := by
  have h2 := (insSorted_perm a l).mem_iff.mp h
  simpa using h2

theorem insSorted_pairwise (a : RankedPlace) (l : List RankedPlace)
    (h : l.Pairwise lexLE) : (insSorted a l).Pairwise lexLE := by
  induction l with
  | nil => simp [insSorted]
  | cons b t ih =>
    rcases List.pairwise_cons.mp h with ⟨hb, ht⟩
    unfold insSorted
    by_cases hk : leKey a b = true
    · rw [if_pos hk]
      have hab : lexLE a b := (leKey_eq_true_iff a b).mp hk
      refine List.pairwise_cons.mpr ⟨?_, h⟩
      intro x hx
      rcases List.mem_cons.mp hx with rfl | hx
      · exact hab
      · exact lexLE_trans hab (hb x hx)
    · rw [if_neg hk]
      have hba : lexLE b a := by
        rcases lexLE_total a b with hab | hba
        · exact absurd ((leKey_eq_true_iff a b).mpr hab) hk
        · exact hba
      refine List.pairwise_cons.mpr ⟨?_, ih ht⟩
      intro x hx
      rcases mem_insSorted hx with rfl | hx
      · exact hba
      · exact hb x hx

theorem sortRanked_pairwise (l : List RankedPlace) :
    (sortRanked l).Pairwise lexLE := by
  induction l with
  | nil => simp [sortRanked]
  | cons a t ih => exact insSorted_pairwise a (sortRanked t) ih

theorem sortRanked_perm (l : List RankedPlace) :
    List.Perm (sortRanked l) l := by
  induction l with
  | nil => exact List.Perm.refl _
  | cons a t ih =>
    exact List.Perm.trans (insSorted_perm a (sortRanked t)) (List.Perm.cons a ih)

/-- Every successful `_distance_matrix` output is sorted by the two-key
order. -/
theorem distance_matrix_ok_sorted (env : Env) (o1 o2 : Rat)
    (places : List Place) (res : List RankedPlace)
    (h : _distance_matrix env o1 o2 places = .ok res) :
    res.Pairwise lexLE := by
  unfold _distance_matrix at h
  split at h
  · rw [Except.ok.injEq] at h
    rw [← h]
    exact List.Pairwise.nil
  · split at h
    · exact absurd h (by simp)
    · split at h
      next paired hp =>
        rw [Except.ok.injEq] at h
        rw [← h]
        exact sortRanked_pairwise paired
      next e hp => exact absurd h (by simp)

/-- Candidate at distance 1000 m (listed first). -/
def placeD1 : Place :=
  { name := some "Far", vicinity := some "V1", lat := 1, lng := 1,
    place_id := some "d1", rating := none }

/-- Candidate at distance 900 m (listed second). -/
def placeD2 : Place :=
  { name := some "Near", vicinity := some "V2", lat := 2, lng := 2,
    place_id := some "d2", rating := none }

/-- Distance Matrix response: both candidates at 400 s, distances
1000 m then 900 m in candidate order. -/
def dmRespC3 : DMResp :=
  { rows := some [⟨some [
      ⟨some "OK", some ("1.0 km", 1000), some ("7 mins", 400)⟩,
      ⟨some "OK", some ("0.9 km", 900), some ("7 mins", 400)⟩]⟩] }

/-- Environment for the C3 ranking example. -/
def envC3 : Env := { exnEnv with distanceMatrix := fun _ _ => .ok dmRespC3 }

def rankD1 : RankedPlace := mkRanked placeD1 ("1.0 km", 1000) ("7 mins", 400)

def rankD2 : RankedPlace := mkRanked placeD2 ("0.9 km", 900) ("7 mins", 400)

/-- C3: every successful ranking is ordered ascending by duration with ties
broken by ascending distance (`lexLE` pairwise), and concretely two
candidates with equal 400 s durations and distances 1000 m / 900 m come
back with the 900 m candidate first. -/
theorem rank_sorted_two_key :
    (∀ env o1 o2 places res,
      _distance_matrix env o1 o2 places = .ok res → res.Pairwise lexLE) ∧
    _distance_matrix envC3 10 20 [placeD1, placeD2] = .ok [rankD2, rankD1] ∧
    rankD2.duration_value = 400 ∧ rankD1.duration_value = 400 ∧
    rankD2.distance_value = 900 ∧ rankD1.distance_value = 1000 :=
  ⟨fun env o1 o2 places res h => distance_matrix_ok_sorted env o1 o2 places res h,
   rfl, rfl, rfl, rfl, rfl⟩

/-- Witness for C3's universally quantified part at the concrete ranking
example. -/
theorem rank_sorted_two_key_witness :
    ([rankD2, rankD1] : List RankedPlace).Pairwise lexLE :=
  rank_sorted_two_key.1 envC3 10 20 [placeD1, placeD2] [rankD2, rankD1] rfl

/-- Specification of the pairing loop: a successful run has one entry per
`"OK"` element, and each entry pairs the element at position `j` with the
candidate at the same (offset) position. -/
theorem pairElems_spec (places : List Place) :
    ∀ elems idx res, pairElems places idx elems = .ok res →
      res.length =
        (elems.filter (fun el => el.status = some "OK")).length ∧
      ∀ r ∈ res, ∃ j el p d u, elems[j]? = some el ∧ el.status = some "OK" ∧
        places[idx + j]? = some p ∧ el.distance = some d ∧
        el.duration = some u ∧ r = mkRanked p d u := by
  intro elems
  induction elems with
  | nil =>
    intro idx res h
    rw [show pairElems places idx [] = .ok [] from rfl, Except.ok.injEq] at h
    rw [← h]
    exact ⟨rfl, by simp⟩
  | cons el rest ih =>
    intro idx res h
    unfold pairElems at h
    by_cases hst : el.status = some "OK"
    · rw [if_pos hst] at h
      split at h
      next p d u hpl hd hu =>
        split at h
        next l hl =>
          rw [Except.ok.injEq] at h
          rcases ih (idx + 1) l hl with ⟨hlen, hmem⟩
          constructor
          · rw [← h]
            simp [List.filter_cons, hst, hlen]
          · intro r hr
            rw [← h] at hr
            rcases List.mem_cons.mp hr with rfl | hr
            · exact ⟨0, el, p, d, u, by simp, hst, by simpa using hpl, hd, hu, rfl⟩
            · rcases hmem r hr with ⟨j, el2, p2, d2, u2, h1, h2, h3, h4, h5, h6⟩
              refine ⟨j + 1, el2, p2, d2, u2, ?_, h2, ?_, h4, h5, h6⟩
              · simpa using h1
              · rw [show idx + (j + 1) = idx + 1 + j by omega]
                exact h3
        next e hl => exact absurd h (by simp)
      next hno => exact absurd h (by simp)
      next hno => exact absurd h (by simp)
      next hno => exact absurd h (by simp)
    · rw [if_neg hst] at h
      rcases ih (idx + 1) res h with ⟨hlen, hmem⟩
      constructor
      · rw [hlen]
        simp [List.filter_cons, hst]
      · intro r hr
        rcases hmem r hr with ⟨j, el2, p2, d2, u2, h1, h2, h3, h4, h5, h6⟩
        refine ⟨j + 1, el2, p2, d2, u2, ?_, h2, ?_, h4, h5, h6⟩
        · simpa using h1
        · rw [show idx + (j + 1) = idx + 1 + j by omega]
          exact h3

/-- Transfer of `pairElems_spec` to the sorted `_distance_matrix` output. -/
theorem distance_matrix_ok_entries (env : Env) (o1 o2 : Rat)
    (places : List Place) (resp : DMResp) (res : List RankedPlace)
    (hne : places ≠ [])
    (hdm : env.distanceMatrix (o1, o2) (places.map fun p => (p.lat, p.lng)) =
      .ok resp)
    (hok : _distance_matrix env o1 o2 places = .ok res) :
    res.length =
      ((dmElements resp).filter (fun el => el.status = some "OK")).length ∧
    ∀ r ∈ res, ∃ (j : Nat) (el : DMElement) (p : Place) (d u : String × Int),
      (dmElements resp)[j]? = some el ∧
      el.status = some "OK" ∧ places[j]? = some p ∧ el.distance = some d ∧
      el.duration = some u ∧ r = mkRanked p d u := by
  unfold _distance_matrix at hok
  rw [if_neg (by simpa using hne), hdm] at hok
  simp only [] at hok
  cases hp : pairElems places 0 (dmElements resp) with
  | error e => rw [hp] at hok; exact absurd hok (by simp)
  | ok paired =>
    rw [hp] at hok
    simp only [Except.ok.injEq] at hok
    rcases pairElems_spec places (dmElements resp) 0 paired hp with ⟨hlen, hmem⟩
    have hperm := sortRanked_perm paired
    constructor
    · rw [← hok, hperm.length_eq]
      exact hlen
    · intro r hr
      rw [← hok] at hr
      have hr2 : r ∈ paired := hperm.mem_iff.mp hr
      rcases hmem r hr2 with ⟨j, el, p, d, u, h1, h2, h3, h4, h5, h6⟩
      exact ⟨j, el, p, d, u, h1, h2, by simpa using h3, h4, h5, h6⟩

def placeE1 : Place :=
  { name := some "E1", vicinity := some "VE1", lat := 3, lng := 3,
    place_id := some "e1", rating := none }

def placeE2 : Place :=
  { name := some "E2", vicinity := some "VE2", lat := 4, lng := 4,
    place_id := some "e2", rating := none }

def placeE3 : Place :=
  { name := some "E3", vicinity := some "VE3", lat := 5, lng := 5,
    place_id := some "e3", rating := none }

/-- Distance Matrix response with statuses OK / OK / ZERO_RESULTS and
durations 600 s / 300 s / – in candidate order. -/
def dmRespC4 : DMResp :=
  { rows := some [⟨some [
      ⟨some "OK", some ("5 km", 5000), some ("10 mins", 600)⟩,
      ⟨some "OK", some ("3 km", 3000), some ("5 mins", 300)⟩,
      ⟨some "ZERO_RESULTS", none, none⟩]⟩] }

/-- Environment for the C4 pairing example. -/
def envC4 : Env := { exnEnv with distanceMatrix := fun _ _ => .ok dmRespC4 }

def rankE1 : RankedPlace := mkRanked placeE1 ("5 km", 5000) ("10 mins", 600)

def rankE2 : RankedPlace := mkRanked placeE2 ("3 km", 3000) ("5 mins", 300)

/-- C4: a successful ranking includes one entry per positional element with
per-element status "OK", each paired with the candidate at the same index;
concretely, statuses ["OK","OK","ZERO_RESULTS"] with durations [600,300,–]
yield exactly two entries ordered [300, 600]. -/
theorem rank_includes_only_ok_by_index :
    (∀ env o1 o2 places resp res, places ≠ [] →
      env.distanceMatrix (o1, o2) (places.map fun p => (p.lat, p.lng)) =
        .ok resp →
      _distance_matrix env o1 o2 places = .ok res →
      res.length =
        ((dmElements resp).filter (fun el => el.status = some "OK")).length ∧
      ∀ r ∈ res, ∃ (j : Nat) (el : DMElement) (p : Place) (d u : String × Int),
        (dmElements resp)[j]? = some el ∧ el.status = some "OK" ∧
        places[j]? = some p ∧ el.distance = some d ∧ el.duration = some u ∧
        r = mkRanked p d u) ∧
    _distance_matrix envC4 10 20 [placeE1, placeE2, placeE3] =
      .ok [rankE2, rankE1] ∧
    rankE2.duration_value = 300 ∧ rankE1.duration_value = 600 :=
  ⟨fun env o1 o2 places resp res hne hdm hok =>
      distance_matrix_ok_entries env o1 o2 places resp res hne hdm hok,
   rfl, rfl, rfl⟩

/-- Witness for C4's universally quantified part at the concrete pairing
example. -/
theorem rank_includes_only_ok_by_index_witness :
    ([rankE2, rankE1] : List RankedPlace).length =
      ((dmElements dmRespC4).filter (fun el => el.status = some "OK")).length :=
  (rank_includes_only_ok_by_index.1 envC4 10 20 [placeE1, placeE2, placeE3]
    dmRespC4 [rankE2, rankE1] (by decide) rfl rfl).1

/-- C8: for city "Ahmedabad" with jammed area "ljuniversity", normalization
splits the area into "LJ University", and that normalized string is what is
dispatched to the area-refinement provider (the biased Find Place call) —
when that call answers, its candidate's location is the result. -/
theorem jammed_area_split_before_dispatch :
    _normalize_place_text "ljuniversity" = "LJ University" ∧
    ∀ (env : Env) (ctr : TSResp) (t : TSResult) (rest : List TSResult)
      (cl cg : Rat) (fpr : FPResp) (c : FPCand) (crest : List FPCand),
      env.textSearch "Ahmedabad, India" none = .ok ctr →
      ctr.results = t :: rest →
      t.location.lat = some cl → t.location.lng = some cg →
      env.findPlace "LJ University" (some (cl, cg, 30000)) = .ok fpr →
      fpr.candidates = c :: crest →
      (_geocode_city_area env (some "Ahmedabad") (some "ljuniversity")).1 =
        c.location.lat ∧
      (_geocode_city_area env (some "Ahmedabad") (some "ljuniversity")).2.1 =
        c.location.lng := by
  refine ⟨by decide, ?_⟩
  intro env ctr t rest cl cg fpr c crest hts hres hlat hlng hfp hcand
  unfold _geocode_city_area
  simp only [Option.getD_some,
    show _normalize_place_text "Ahmedabad" = "Ahmedabad" from by decide,
    show _normalize_place_text "ljuniversity" = "LJ University" from by decide]
  simp only [show (("Ahmedabad" : String) ≠ "") = True from by simp,
    if_true, ite_true]
  simp only [show addIndia "Ahmedabad" = "Ahmedabad, India" from by decide,
    show decide (("Ahmedabad" : String) = "") = false from by decide,
    show decide (("LJ University" : String) = "") = false from by decide,
    Bool.and_self, Bool.false_eq_true, if_false]
  rw [hts]
  simp only [hres, hlat, hlng]
  unfold cityAVFallback
  rw [if_neg (by simp)]
  simp only []
  rw [if_neg (show ¬("LJ University" : String) = "" from by decide)]
  simp only [show (("LJ University" : String) ≠ "") = True from by simp,
    show (("LJ University" : String).data.contains ' ') = true from by decide,
    Bool.not_true, Bool.and_false, decide_True, Bool.true_and, if_false]
  simp only [Bool.false_eq_true, if_false, List.append_nil]
  simp only [show List.filter (fun v => decide (v ≠ "")) [("LJ University" : String)]
      = [("LJ University" : String)] from by decide]
  unfold areaFPLoop
  rw [hfp]
  simp [hcand]

/-- Find Place response locating LJ University. -/
def fpRespC8 : FPResp :=
  { httpStatus := 200, status := some "OK", error_message := none,
    candidates := [⟨⟨some 23, some 72⟩⟩] }

/-- Environment for the C8 witness: the city Text Search answers, and the
biased Find Place answers only for the query "LJ University". -/
def envC8 : Env :=
  { exnEnv with
    textSearch := fun q b =>
      if q = "Ahmedabad, India" && b.isNone then .ok tsRespC6 else .exn "conn"
    findPlace := fun q _ =>
      if q = "LJ University" then .ok fpRespC8 else .exn "conn" }

/-- Witness for C8's dispatched refinement at `envC8`. -/
theorem jammed_area_split_before_dispatch_witness :
    (_geocode_city_area envC8 (some "Ahmedabad") (some "ljuniversity")).1 =
      some 23 ∧
    (_geocode_city_area envC8 (some "Ahmedabad") (some "ljuniversity")).2.1 =
      some 72 :=
  jammed_area_split_before_dispatch.2 envC8 tsRespC6 ⟨⟨some 23, some 72⟩⟩ []
    23 72 fpRespC8 ⟨⟨some 23, some 72⟩⟩ [] rfl rfl rfl rfl rfl rfl

def noDoubleSpace (l : List Char) : Prop :=
  l.Chain' (fun a b => ¬(isPySpace a = true ∧ isPySpace b = true))

def noEdgeSpace (l : List Char) : Prop :=
  (∀ c ∈ l.head?, isPySpace c = false) ∧ ∀ c ∈ l.getLast?, isPySpace c = false

def cleanToken (t : List Char) : Prop :=
  t ≠ [] ∧ ∀ c ∈ t, isPySpace c = false

theorem pySplitAux_tokens (l : List Char) :
    ∀ acc, (∀ c ∈ acc, isPySpace c = false) →
      ∀ t ∈ pySplitAux l acc, cleanToken t := by
  induction l with
  | nil =>
    intro acc hacc t ht
    unfold pySplitAux at ht
    by_cases hae : acc.isEmpty
    · rw [if_pos hae] at ht
      exact absurd ht (by simp)
    · rw [if_neg hae] at ht
      rcases List.mem_singleton.mp ht with rfl
      refine ⟨by simpa using hae, ?_⟩
      intro c hc
      exact hacc c (List.mem_reverse.mp hc)
  | cons c rest ih =>
    intro acc hacc t ht
    unfold pySplitAux at ht
    by_cases hsp : isPySpace c = true
    · rw [if_pos hsp] at ht
      by_cases hae : acc.isEmpty
      · rw [if_pos hae] at ht
        exact ih [] (by simp) t ht
      · rw [if_neg hae] at ht
        rcases List.mem_cons.mp ht with rfl | ht2
        · refine ⟨by simpa using hae, ?_⟩
          intro x hx
          exact hacc x (List.mem_reverse.mp hx)
        · exact ih [] (by simp) t ht2
    · rw [if_neg hsp] at ht
      refine ih (c :: acc) ?_ t ht
      intro x hx
      rcases List.mem_cons.mp hx with rfl | hx2
      · simpa using hsp
      · exact hacc x hx2

theorem chain_of_no_space (l : List Char)
    (h : ∀ c ∈ l, isPySpace c = false) : noDoubleSpace l := by
  induction l with
  | nil => exact List.chain'_nil
  | cons a t ih =>
    refine List.chain'_cons'.mpr ⟨?_, ih (fun c hc => h c (List.mem_cons_of_mem a hc))⟩
    intro y hy
    intro hcon
    have := h a (List.mem_cons_self a t)
    rw [this] at hcon
    exact Bool.noConfusion hcon.1

theorem joinSp_ne_nil (t : List Char) (ts : List (List Char)) (h : t ≠ []) :
    joinSp (t :: ts) ≠ [] := by
  cases ts with
  | nil => exact h
  | cons t2 rest =>
    show t ++ ' ' :: joinSp (t2 :: rest) ≠ []
    simp

theorem joinSp_clean (ts : List (List Char))
    (h : ∀ t ∈ ts, cleanToken t) :
    noDoubleSpace (joinSp ts) ∧ noEdgeSpace (joinSp ts) := by
  induction ts with
  | nil =>
    exact ⟨List.chain'_nil, by simp [joinSp], by simp [joinSp]⟩
  | cons t rest ih =>
    rcases h t (List.mem_cons_self t rest) with ⟨hne, hcl⟩
    have hrest : ∀ u ∈ rest, cleanToken u :=
      fun u hu => h u (List.mem_cons_of_mem t hu)
    cases rest with
    | nil =>
      refine ⟨chain_of_no_space t hcl, ?_, ?_⟩
      · intro c hc
        exact hcl c (List.mem_of_mem_head? hc)
      · intro c hc
        exact hcl c (List.mem_of_getLast?_eq_some hc)
    | cons t2 rest2 =>
      rcases ih hrest with ⟨hnds, hhead, hlast⟩
      have hj2 : joinSp (t2 :: rest2) ≠ [] :=
        joinSp_ne_nil t2 rest2 (hrest t2 (List.mem_cons_self t2 rest2)).1
      have hjoin : joinSp (t :: t2 :: rest2) = t ++ ' ' :: joinSp (t2 :: rest2) := rfl
      refine ⟨?_, ?_, ?_⟩
      · rw [hjoin]
        refine List.chain'_append.mpr ⟨chain_of_no_space t hcl, ?_, ?_⟩
        · refine List.chain'_cons'.mpr ⟨?_, hnds⟩
          intro y hy hcon
          exact absurd hcon.2 (by simp [hhead y hy])
        · intro x hx y hy hcon
          have hxf := hcl x (List.mem_of_getLast?_eq_some hx)
          rw [hxf] at hcon
          exact Bool.noConfusion hcon.1
      · intro c hc
        rw [hjoin] at hc
        cases t with
        | nil => exact absurd rfl hne
        | cons a t3 =>
          have hac : a = c := by simpa using hc
          rw [← hac]
          exact hcl a (List.mem_cons_self a t3)
      · intro c hc
        rw [hjoin] at hc
        rw [show (t ++ ' ' :: joinSp (t2 :: rest2))
            = (t ++ [' ']) ++ joinSp (t2 :: rest2) by simp] at hc
        rw [List.getLast?_append] at hc
        have hx : ∃ x, (joinSp (t2 :: rest2)).getLast? = some x := by
          rcases hj : (joinSp (t2 :: rest2)).getLast? with _ | x
          · exact absurd (List.getLast?_eq_none_iff.mp hj) hj2
          · exact ⟨x, rfl⟩
        rcases hx with ⟨x, hx⟩
        rw [hx] at hc
        have hxc : x = c := by simpa using hc
        rw [← hxc]
        exact hlast x hx


theorem collapseWS_clean (l : List Char) :
    noDoubleSpace (collapseWS l) ∧ noEdgeSpace (collapseWS l) :=
  joinSp_clean (pySplit l) (pySplitAux_tokens l [] (by simp))

theorem normalizeAddressL_clean (l : List Char) :
    noDoubleSpace (normalizeAddressL l) ∧ noEdgeSpace (normalizeAddressL l) := by
  unfold normalizeAddressL
  rcases collapseWS_clean l with ⟨hnds, hhead, hlast⟩
  by_cases he : (collapseWS l).isEmpty
  · rw [if_pos he]; exact ⟨hnds, hhead, hlast⟩
  · rw [if_neg he]
    by_cases hi : containsIndia (collapseWS l) = true
    · rw [if_pos hi]; exact ⟨hnds, hhead, hlast⟩
    · rw [if_neg hi]
      have hcne : collapseWS l ≠ [] := by simpa using he
      have hsuffix : List.Chain'
          (fun a b => ¬(isPySpace a = true ∧ isPySpace b = true)) ", India".data := by
        rw [show (", India".data : List Char)
            = [',', ' ', 'I', 'n', 'd', 'i', 'a'] from rfl]
        repeat refine List.chain'_cons.mpr ⟨by decide, ?_⟩
        exact List.chain'_singleton 'a'
      refine ⟨?_, ?_, ?_⟩
      · refine List.chain'_append.mpr ⟨hnds, hsuffix, ?_⟩
        intro x hx y hy hcon
        have hy2 : ',' = y := by simpa using hy
        rw [← hy2] at hcon
        exact absurd hcon.2 (by decide)
      · intro c hc
        rw [List.head?_append] at hc
        have hex : ∃ a, (collapseWS l).head? = some a := by
          rcases hh : (collapseWS l).head? with _ | a
          · exact absurd (List.head?_eq_none_iff.mp hh) hcne
          · exact ⟨a, rfl⟩
        rcases hex with ⟨a, ha⟩
        rw [ha] at hc
        have hac : a = c := by simpa using hc
        rw [← hac]
        exact hhead a ha
      · intro c hc
        rw [List.getLast?_append] at hc
        have hac : 'a' = c := by simpa using hc
        rw [← hac]
        decide

/-- C9: for every input string, if the address is non-empty then the
normalized form used for geocoding (whitespace collapse, and likewise after
the `", India"` country suffix is appended) contains no two consecutive
whitespace characters and no leading or trailing whitespace. -/
theorem normalized_address_whitespace (s : String) (h : s ≠ "") :
    (noDoubleSpace (collapseWS s.data) ∧ noEdgeSpace (collapseWS s.data)) ∧
    noDoubleSpace (normalizeAddress s).data ∧
      noEdgeSpace (normalizeAddress s).data :=
  ⟨collapseWS_clean s.data, normalizeAddressL_clean s.data⟩

/-- Witness for C9 at `" LJ  University "`. -/
theorem normalized_address_whitespace_witness :
    (noDoubleSpace (collapseWS " LJ  University ".data) ∧
      noEdgeSpace (collapseWS " LJ  University ".data)) ∧
    noDoubleSpace (normalizeAddress " LJ  University ").data ∧
      noEdgeSpace (normalizeAddress " LJ  University ").data :=
  normalized_address_whitespace " LJ  University " (by decide)

theorem toNat_ofNat_valid (n : Nat) (h : n.isValidChar) :
    (Char.ofNat n).toNat = n := by
  unfold Char.ofNat
  rw [dif_pos h]
  rfl

theorem valid_of_le (n : Nat) (h : n ≤ 200) : n.isValidChar :=
  Or.inl (by omega)

theorem toUpper_toNat (c : Char) :
    c.toUpper.toNat = if 97 ≤ c.toNat ∧ c.toNat ≤ 122 then c.toNat - 32 else c.toNat := by
  unfold Char.toUpper
  by_cases h : c.toNat ≥ 97 ∧ c.toNat ≤ 122
  · rw [if_pos h, if_pos ⟨h.1, h.2⟩]
    exact toNat_ofNat_valid _ (valid_of_le _ (by omega))
  · rw [if_neg h, if_neg (fun hc => h ⟨hc.1, hc.2⟩)]

theorem toLower_toNat (c : Char) :
    c.toLower.toNat = if 65 ≤ c.toNat ∧ c.toNat ≤ 90 then c.toNat + 32 else c.toNat := by
  unfold Char.toLower
  by_cases h : c.toNat ≥ 65 ∧ c.toNat ≤ 90
  · rw [if_pos h, if_pos ⟨h.1, h.2⟩]
    exact toNat_ofNat_valid _ (valid_of_le _ (by omega))
  · rw [if_neg h, if_neg (fun hc => h ⟨hc.1, hc.2⟩)]

theorem char_eq_of_toNat_eq {a b : Char} (h : a.toNat = b.toNat) : a = b := by
  have h2 := congrArg Char.ofNat h
  rwa [Char.ofNat_toNat, Char.ofNat_toNat] at h2

theorem isPySpace_toUpper (c : Char) : isPySpace c.toUpper = isPySpace c := by
  unfold isPySpace
  rw [toUpper_toNat, Bool.eq_iff_iff]
  simp only [Bool.or_eq_true, decide_eq_true_eq]
  split_ifs <;> omega

theorem isPySpace_toLower (c : Char) : isPySpace c.toLower = isPySpace c := by
  unfold isPySpace
  rw [toLower_toNat, Bool.eq_iff_iff]
  simp only [Bool.or_eq_true, decide_eq_true_eq]
  split_ifs <;> omega

theorem isAsciiLetter_toUpper (c : Char) :
    isAsciiLetter c.toUpper = isAsciiLetter c := by
  unfold isAsciiLetter
  rw [toUpper_toNat, Bool.eq_iff_iff]
  simp only [Bool.or_eq_true, Bool.and_eq_true, decide_eq_true_eq]
  split_ifs <;> omega

theorem isAsciiLetter_toLower (c : Char) :
    isAsciiLetter c.toLower = isAsciiLetter c := by
  unfold isAsciiLetter
  rw [toLower_toNat, Bool.eq_iff_iff]
  simp only [Bool.or_eq_true, Bool.and_eq_true, decide_eq_true_eq]
  split_ifs <;> omega

theorem toUpper_toUpper (c : Char) : c.toUpper.toUpper = c.toUpper := by
  apply char_eq_of_toNat_eq
  simp only [toUpper_toNat]
  split_ifs <;> omega

theorem toLower_toLower (c : Char) : c.toLower.toLower = c.toLower := by
  apply char_eq_of_toNat_eq
  simp only [toLower_toNat]
  split_ifs <;> omega

theorem toLower_toUpper (c : Char) : c.toUpper.toLower = c.toLower := by
  apply char_eq_of_toNat_eq
  simp only [toLower_toNat, toUpper_toNat]
  split_ifs <;> omega

theorem chCI_toUpper (c d : Char) : chCI c.toUpper d = chCI c d := by
  unfold chCI
  rw [toLower_toUpper]

theorem chCI_toLower (c d : Char) : chCI c.toLower d = chCI c d := by
  unfold chCI
  rw [toLower_toLower]


def hasJam (w : List Char) : List Char → Bool
  | [] => false
  | c :: rest => (isAsciiLetter c && matchesCI w rest) || hasJam w rest

theorem subJamF_id (w : List Char) : ∀ n l, hasJam w l = false → subJamF w n l = l := by
  intro n
  induction n with
  | zero => intro l h; rfl
  | succ n ih =>
    intro l h
    cases l with
    | nil => rfl
    | cons c rest =>
      unfold hasJam at h
      rw [Bool.or_eq_false_iff] at h
      unfold subJamF
      rw [if_neg (by simp [h.1])]
      rw [ih rest h.2]

theorem subJam_id (w l : List Char) (h : hasJam w l = false) : subJam w l = l :=
  subJamF_id w l.length l h

theorem foldl_subJam_id (ws : List (List Char)) (t : List Char)
    (h : ∀ w ∈ ws, subJam w t = t) :
    ws.foldl (fun acc w => subJam w acc) t = t := by
  induction ws with
  | nil => rfl
  | cons w ws' ih =>
    show ws'.foldl (fun acc w => subJam w acc) (subJam w t) = t
    rw [h w (List.mem_cons_self w ws')]
    exact ih (fun w2 hw2 => h w2 (List.mem_cons_of_mem w hw2))

theorem subJamF_head (w : List Char) : ∀ (n : Nat) (l : List Char),
    (subJamF w n l).head? = l.head? := by
  intro n l
  cases n with
  | zero => rfl
  | succ n =>
    cases l with
    | nil => rfl
    | cons c rest =>
      unfold subJamF
      by_cases h : isAsciiLetter c && matchesCI w rest
      · rw [if_pos h]; rfl
      · rw [if_neg h]; rfl

theorem foldl_subJam_head (ws : List (List Char)) :
    ∀ t, (ws.foldl (fun acc w => subJam w acc) t).head? = t.head? := by
  induction ws with
  | nil => intro t; rfl
  | cons w ws' ih =>
    intro t
    show (ws'.foldl (fun acc w => subJam w acc) (subJam w t)).head? = t.head?
    rw [ih (subJam w t)]
    exact subJamF_head w t.length t

def startsLJish : List Char → Bool
  | a :: b :: _ => chCI a 'l' && chCI b 'j'
  | _ => false

theorem chCI_comm (a b : Char) : chCI a b = chCI b a := by
  unfold chCI
  rw [Bool.eq_iff_iff]
  simp [eq_comm]

theorem ljSub_id {l : List Char} (h : startsLJish l = false) : ljSub l = l := by
  cases l with
  | nil => rfl
  | cons a t =>
    cases t with
    | nil => rfl
    | cons b rest =>
      unfold ljSub
      unfold startsLJish at h
      simp only [] at h
      simp only []
      rw [if_neg (by simp [h])]

theorem ljUnivSub_id {l : List Char} (h : startsLJish l = false) :
    ljUnivSub l = l := by
  unfold ljUnivSub
  cases l with
  | nil => rfl
  | cons a t =>
    cases t with
    | nil =>
      rw [if_neg]
      simp [matchesCI]
    | cons b rest =>
      unfold startsLJish at h
      simp only [] at h
      rw [if_neg]
      intro hcon
      rw [Bool.and_eq_true] at hcon
      have h1 : matchesCI "lj".data (a :: b :: rest) = true := hcon.1
      have h2 : (chCI 'l' a && (chCI 'j' b && true)) = true := h1
      simp only [Bool.and_true, Bool.and_eq_true] at h2
      rw [chCI_comm a 'l', chCI_comm b 'j'] at h
      rw [h2.1, h2.2] at h
      exact Bool.noConfusion h

theorem pySplitAux_word (t : List Char) :
    ∀ rest acc, (∀ c ∈ t, isPySpace c = false) →
      pySplitAux (t ++ rest) acc = pySplitAux rest (t.reverse ++ acc) := by
  induction t with
  | nil => intro rest acc h; simp
  | cons c t' ih =>
    intro rest acc h
    show pySplitAux (c :: (t' ++ rest)) acc = _
    unfold pySplitAux
    rw [if_neg (by simp [h c (List.mem_cons_self c t')])]
    rw [ih rest (c :: acc) (fun x hx => h x (List.mem_cons_of_mem c hx))]
    rw [List.reverse_cons, List.append_assoc, List.singleton_append]
    cases rest with
    | nil => rfl
    | cons d rest2 => rfl

theorem split_join (ts : List (List Char)) (h : ∀ t ∈ ts, cleanToken t) :
    pySplit (joinSp ts) = ts := by
  induction ts with
  | nil => rfl
  | cons t rest ih =>
    rcases h t (List.mem_cons_self t rest) with ⟨hne, hcl⟩
    have hrest : ∀ u ∈ rest, cleanToken u :=
      fun u hu => h u (List.mem_cons_of_mem t hu)
    cases rest with
    | nil =>
      show pySplit t = [t]
      unfold pySplit
      rw [show t = t ++ [] by simp, pySplitAux_word t [] [] hcl]
      show pySplitAux [] (t.reverse ++ []) = [t ++ []]
      unfold pySplitAux
      rw [if_neg (by simpa using hne)]
      simp
    | cons t2 rest2 =>
      show pySplit (t ++ ' ' :: joinSp (t2 :: rest2)) = t :: t2 :: rest2
      unfold pySplit
      rw [pySplitAux_word t (' ' :: joinSp (t2 :: rest2)) [] hcl]
      unfold pySplitAux
      rw [if_pos (by decide)]
      rw [if_neg (by simpa using hne)]
      simp only [List.append_nil, List.reverse_reverse]
      rw [show pySplitAux (joinSp (t2 :: rest2)) [] = pySplit (joinSp (t2 :: rest2)) from rfl]
      rw [ih hrest]


theorem pyCapitalize_length (t : List Char) :
    (pyCapitalize t).length = t.length := by
  cases t <;> simp [pyCapitalize]

theorem pyIsAlpha_map_toUpper (t : List Char) :
    pyIsAlpha (t.map Char.toUpper) = pyIsAlpha t := by
  cases t with
  | nil => rfl
  | cons a cs =>
    unfold pyIsAlpha
    simp [List.all_map, Function.comp_def, isAsciiLetter_toUpper]

theorem pyIsAlpha_pyCapitalize (t : List Char) :
    pyIsAlpha (pyCapitalize t) = pyIsAlpha t := by
  cases t with
  | nil => rfl
  | cons a cs =>
    unfold pyIsAlpha pyCapitalize
    simp [List.all_map, Function.comp_def, isAsciiLetter_toUpper,
      isAsciiLetter_toLower]

theorem titleTok_clean {t : List Char} (h : cleanToken t) :
    cleanToken (titleTok t) := by
  rcases h with ⟨hne, hcl⟩
  unfold titleTok
  by_cases hc : (t.length ≤ 3 && pyIsAlpha t) = true
  · rw [if_pos hc]
    constructor
    · cases t with
      | nil => exact absurd rfl hne
      | cons a cs => simp
    · intro c hc2
      rcases List.mem_map.mp hc2 with ⟨a, ha, rfl⟩
      rw [isPySpace_toUpper]
      exact hcl a ha
  · rw [if_neg hc]
    cases t with
    | nil => exact absurd rfl hne
    | cons a cs =>
      constructor
      · simp [pyCapitalize]
      · intro c hc2
        unfold pyCapitalize at hc2
        rcases List.mem_cons.mp hc2 with rfl | hc3
        · rw [isPySpace_toUpper]
          exact hcl a (List.mem_cons_self a cs)
        · rcases List.mem_map.mp hc3 with ⟨x, hx, rfl⟩
          rw [isPySpace_toLower]
          exact hcl x (List.mem_cons_of_mem a hx)

theorem titleTok_idem (t : List Char) : titleTok (titleTok t) = titleTok t := by
  unfold titleTok
  by_cases hc : (t.length ≤ 3 && pyIsAlpha t) = true
  · rw [if_pos hc, if_pos]
    · rw [List.map_map]
      exact List.map_congr_left (fun a _ => toUpper_toUpper a)
    · rw [List.length_map, pyIsAlpha_map_toUpper]
      exact hc
  · rw [if_neg hc, if_neg]
    · cases t with
      | nil => rfl
      | cons a cs =>
        show pyCapitalize (a.toUpper :: cs.map Char.toLower) = _
        unfold pyCapitalize
        simp only []
        rw [toUpper_toUpper, List.map_map]
        congr 1
        exact List.map_congr_left (fun x _ => toLower_toLower x)
    · rw [pyCapitalize_length, pyIsAlpha_pyCapitalize]
      exact hc

theorem map_titleTok_fixed (ts : List (List Char))
    (h : ∀ t ∈ ts, titleTok t = t) : ts.map titleTok = ts := by
  calc ts.map titleTok = ts.map id := List.map_congr_left (fun t ht => h t ht)
    _ = ts := List.map_id ts


theorem pySplit_lj (r : List Char) :
    pySplit ('L' :: 'J' :: ' ' :: r) = ['L', 'J'] :: pySplit r := by
  show pySplitAux ('L' :: 'J' :: ' ' :: r) [] = ['L', 'J'] :: pySplitAux r []
  simp only [pySplitAux,
    show isPySpace 'L' = false from by decide,
    show isPySpace 'J' = false from by decide,
    show isPySpace ' ' = true from by decide,
    Bool.false_eq_true, if_false, if_true]
  rfl

theorem pySplit_single {a : Char} (h : isPySpace a = false) :
    pySplit [a] = [[a]] := by
  show pySplitAux [a] [] = [[a]]
  unfold pySplitAux
  rw [if_neg (by simp [h])]
  rfl

theorem pySplit_cons_space {a b : Char} (v : List Char)
    (ha : isPySpace a = false) (hb : isPySpace b = true) :
    pySplit (a :: b :: v) = [a] :: pySplit v := by
  show pySplitAux (a :: b :: v) [] = [a] :: pySplitAux v []
  conv_lhs => unfold pySplitAux
  rw [if_neg (by simp [ha])]
  conv_lhs => unfold pySplitAux
  rw [if_pos (by simp [hb]), if_neg (by simp)]
  simp

theorem pySplitAux_acc_ne (v : List Char) :
    ∀ acc, acc ≠ [] → ∃ w ts, pySplitAux v acc = (acc.reverse ++ w) :: ts := by
  induction v with
  | nil =>
    intro acc hacc
    refine ⟨[], [], ?_⟩
    unfold pySplitAux
    rw [if_neg (by simpa using hacc)]
    simp
  | cons c v' ih =>
    intro acc hacc
    unfold pySplitAux
    by_cases hc : isPySpace c = true
    · rw [if_pos (by simp [hc]), if_neg (by simpa using hacc)]
      exact ⟨[], pySplitAux v' [], by simp⟩
    · rw [if_neg (by simp [hc])]
      rcases ih (c :: acc) (by simp) with ⟨w, ts, hw⟩
      refine ⟨c :: w, ts, ?_⟩
      rw [hw]
      simp

theorem pySplit_cons_nonspace {a b : Char} (v : List Char)
    (ha : isPySpace a = false) (hb : isPySpace b = false) :
    ∃ t2 ts2, pySplit (a :: b :: v) = (a :: b :: t2) :: ts2 := by
  rcases pySplitAux_acc_ne v [b, a] (by simp) with ⟨w, ts, hw⟩
  refine ⟨w, ts, ?_⟩
  show pySplitAux (a :: b :: v) [] = (a :: b :: w) :: ts
  conv_lhs => unfold pySplitAux
  rw [if_neg (by simp [ha])]
  conv_lhs => unfold pySplitAux
  rw [if_neg (by simp [hb])]
  rw [hw]
  simp

theorem titleTok_single (a : Char) : titleTok [a] = [a.toUpper] := by
  unfold titleTok pyCapitalize
  split
  · rfl
  · rfl

theorem titleTok_cons_cons (a b : Char) (t2 : List Char) :
    ∃ (c2 : Char) (rest' : List Char),
      titleTok (a :: b :: t2) = a.toUpper :: c2 :: rest' ∧
        chCI c2 'j' = chCI b 'j' := by
  unfold titleTok pyCapitalize
  split
  · exact ⟨b.toUpper, t2.map Char.toUpper, rfl, chCI_toUpper b 'j'⟩
  · exact ⟨b.toLower, t2.map Char.toLower, by simp, chCI_toLower b 'j'⟩

theorem startsLJish_join_cons_cons (x y : Char) (t2 : List Char)
    (ts2 : List (List Char)) :
    startsLJish (joinSp ((x :: y :: t2) :: ts2)) = (chCI x 'l' && chCI y 'j') := by
  cases ts2 with
  | nil => rfl
  | cons u us => rfl

theorem startsLJish_join_single (x : Char) (ts2 : List (List Char)) :
    startsLJish (joinSp ([x] :: ts2)) = false := by
  cases ts2 with
  | nil => rfl
  | cons u us =>
    show startsLJish (x :: ' ' :: joinSp (u :: us)) = false
    unfold startsLJish
    simp only []
    rw [show chCI ' ' 'j' = false from by decide, Bool.and_false]


theorem ljUnivSub_lj_space (r : List Char) :
    ljUnivSub ('L' :: 'J' :: ' ' :: r) = 'L' :: 'J' :: ' ' :: r := by
  unfold ljUnivSub
  rw [if_neg]
  intro hcon
  rw [Bool.and_eq_true] at hcon
  have h2 := hcon.2
  rw [show List.drop 2 ('L' :: 'J' :: ' ' :: r) = ' ' :: r from rfl] at h2
  have h3 : (chCI 'u' ' ' && matchesCI ("niversity".data) r) = true := h2
  rw [show chCI 'u' ' ' = false from by decide, Bool.false_and] at h3
  exact Bool.noConfusion h3

theorem normTextL_shape (l : List Char) (hne : normTextL l ≠ []) :
    ∃ ts, normTextL l = joinSp ts ∧
      (∀ t ∈ ts, cleanToken t ∧ titleTok t = t) ∧
      (ts.head? = some ['L', 'J'] ∨ startsLJish (joinSp ts) = false) := by
  unfold normTextL at hne ⊢
  simp only [] at hne ⊢
  by_cases he : (collapseWS l).isEmpty
  · rw [if_pos he] at hne
    exact absurd (by simpa using he) hne
  · rw [if_neg he] at hne ⊢
    set m := jamWords.foldl (fun acc w => subJam w acc) (collapseWS l) with hm
    set u := ljUnivSub (ljSub m) with hu
    refine ⟨(pySplit u).map titleTok, rfl, ?_, ?_⟩
    · intro t ht
      rcases List.mem_map.mp ht with ⟨t0, ht0, rfl⟩
      have hcl0 : cleanToken t0 := pySplitAux_tokens u [] (by simp) t0 ht0
      exact ⟨titleTok_clean hcl0, titleTok_idem t0⟩
    · -- head of collapseWS l
      have hc0 : collapseWS l ≠ [] := by simpa using he
      have hclean0 : ∀ t ∈ pySplit l, cleanToken t :=
        pySplitAux_tokens l [] (by simp)
      have hhead0 := (joinSp_clean (pySplit l) hclean0).2.1
      by_cases hlj : startsLJish m = true
      · -- case A: leading lj
        rcases hm2 : m with _ | ⟨a2, m'⟩
        · rw [hm2] at hlj
          exact absurd hlj (by decide)
        rcases m' with _ | ⟨b, r⟩
        · rw [hm2] at hlj
          exact absurd hlj (by simp [startsLJish])
        rw [hm2] at hlj
        have hlj2 : (chCI a2 'l' && chCI b 'j') = true := hlj
        have hljsub : ljSub (a2 :: b :: r) =
            'L' :: 'J' :: ' ' :: (r.dropWhile fun c => isPySpace c) := by
          unfold ljSub
          simp only []
          rw [if_pos (by simp [hlj2])]
        have hljuniv := ljUnivSub_lj_space (r.dropWhile fun c => isPySpace c)
        rw [hu, hm2, hljsub, hljuniv, pySplit_lj]
        left
        rw [List.map_cons]
        rw [show titleTok ['L', 'J'] = ['L', 'J'] from by decide]
        rfl
      · -- case B: no leading lj
        rw [Bool.not_eq_true] at hlj
        have hu2 : u = m := by
          rw [hu, ljSub_id hlj, ljUnivSub_id hlj]
        have hhm : m.head? = (collapseWS l).head? := by
          rw [hm]
          exact foldl_subJam_head jamWords (collapseWS l)
        rcases hs0 : collapseWS l with _ | ⟨a, v0⟩
        · exact absurd hs0 hc0
        have hha : m.head? = some a := by rw [hhm, hs0]; rfl
        have hans : isPySpace a = false := by
          apply hhead0
          show (joinSp (pySplit l)).head? = some a
          rw [show joinSp (pySplit l) = collapseWS l from rfl, hs0]
          rfl
        rcases hm2 : m with _ | ⟨a2, v⟩
        · rw [hm2] at hha
          exact absurd hha (by simp)
        rw [hm2] at hha
        have ha2 : a2 = a := by simpa using hha
        rw [ha2] at hm2
        rw [hm2] at hlj
        right
        rw [hu2, hm2]
        cases v with
        | nil =>
          rw [pySplit_single hans, List.map_cons, titleTok_single]
          exact startsLJish_join_single a.toUpper _
        | cons b v' =>
          by_cases hb : isPySpace b = true
          · rw [pySplit_cons_space v' hans hb, List.map_cons, titleTok_single]
            exact startsLJish_join_single a.toUpper _
          · rw [Bool.not_eq_true] at hb
            rcases pySplit_cons_nonspace v' hans hb with ⟨t2, ts2, hsp⟩
            rw [hsp, List.map_cons]
            rcases titleTok_cons_cons a b t2 with ⟨c2, rest', htt, hc2⟩
            rw [htt, startsLJish_join_cons_cons]
            rw [chCI_toUpper, hc2]
            exact hlj


theorem normTextL_idem (l : List Char)
    (hjam : ∀ w ∈ jamWords, hasJam w (normTextL l) = false) :
    normTextL (normTextL l) = normTextL l := by
  by_cases hne : normTextL l = []
  · rw [hne]
    decide
  · obtain ⟨ts, htl, htok, hdich⟩ := normTextL_shape l hne
    have hclean : ∀ t ∈ ts, cleanToken t := fun t ht => (htok t ht).1
    have hfix : ∀ t ∈ ts, titleTok t = t := fun t ht => (htok t ht).2
    have hsplit : pySplit (joinSp ts) = ts := split_join ts hclean
    have hcollapse : collapseWS (joinSp ts) = joinSp ts := by
      unfold collapseWS
      rw [hsplit]
    have hjam2 : ∀ w ∈ jamWords, subJam w (joinSp ts) = joinSp ts := by
      intro w hw
      apply subJam_id
      have hj := hjam w hw
      rwa [htl] at hj
    have hsubs : jamWords.foldl (fun acc w => subJam w acc) (joinSp ts)
        = joinSp ts := foldl_subJam_id jamWords (joinSp ts) hjam2
    have hjne : ¬(joinSp ts).isEmpty = true := by
      rw [← htl]
      simpa using hne
    rw [htl]
    unfold normTextL
    simp only []
    rw [hcollapse, if_neg hjne, hsubs]
    rcases hdich with hLJ | hB
    · rcases hts : ts with _ | ⟨t0, ts2⟩
      · rw [hts] at hLJ
        exact absurd hLJ (by simp)
      subst hts
      have ht0 : t0 = ['L', 'J'] := by simpa using hLJ
      subst ht0
      cases ts2 with
      | nil => decide
      | cons t2 rest =>
        have hcleanr : ∀ t ∈ t2 :: rest, cleanToken t :=
          fun t ht => hclean t (List.mem_cons_of_mem _ ht)
        have hfixr : ∀ t ∈ t2 :: rest, titleTok t = t :=
          fun t ht => hfix t (List.mem_cons_of_mem _ ht)
        have hj : joinSp (['L', 'J'] :: t2 :: rest)
            = 'L' :: 'J' :: ' ' :: joinSp (t2 :: rest) := rfl
        rw [hj]
        -- the inner join is non-empty and starts with a non-space char
        have hjnn : joinSp (t2 :: rest) ≠ [] :=
          joinSp_ne_nil t2 rest (hcleanr t2 (List.mem_cons_self t2 rest)).1
        have hjh := (joinSp_clean (t2 :: rest) hcleanr).2.1
        rcases hjs : joinSp (t2 :: rest) with _ | ⟨c0, j0⟩
        · exact absurd hjs hjnn
        have hc0 : isPySpace c0 = false := by
          apply hjh
          rw [hjs]
          rfl
        have hljsub2 : ljSub ('L' :: 'J' :: ' ' :: c0 :: j0)
            = 'L' :: 'J' :: ' ' :: c0 :: j0 := by
          unfold ljSub
          simp only []
          rw [if_pos (by decide)]
          rw [show List.dropWhile (fun c => isPySpace c) (' ' :: c0 :: j0)
              = List.dropWhile (fun c => isPySpace c) (c0 :: j0) from
            List.dropWhile_cons_of_pos (by decide)]
          simp [hc0]
        rw [hljsub2, ljUnivSub_lj_space, ← hjs, pySplit_lj]
        rw [split_join (t2 :: rest) hcleanr]
        rw [List.map_cons]
        rw [show titleTok ['L', 'J'] = ['L', 'J'] from by decide]
        rw [map_titleTok_fixed (t2 :: rest) hfixr]
        exact hj
    · rw [ljSub_id hB, ljUnivSub_id hB, hsplit, map_titleTok_fixed ts hfix]

/-- C10 counterexample: the normalizer is not idempotent.  On
"auniversityuniversity" the first pass splits only the first jammed
occurrence (Python re.sub resumes scanning after a match), so the output
"A Universityuniversity" still contains a letter-jammed "university" and a
second pass splits it again. -/
theorem normalize_not_idempotent_counterexample :
    _normalize_place_text "auniversityuniversity" = "A Universityuniversity" ∧
    _normalize_place_text (_normalize_place_text "auniversityuniversity")
      = "A University University" ∧
    _normalize_place_text (_normalize_place_text "auniversityuniversity")
      ≠ _normalize_place_text "auniversityuniversity" :=
  ⟨by decide, by decide, by decide⟩

/-- C10 (amended): the normalizer is idempotent on every input whose
normalized output contains no keyword (university/college/institute/
technology/school, case-insensitively) immediately preceded by an ASCII
letter; the claim as stated fails in general (see the counterexample). -/
theorem normalize_idempotent_no_jam (s : String)
    (h : ∀ w ∈ jamWords, hasJam w (_normalize_place_text s).data = false) :
    _normalize_place_text (_normalize_place_text s) = _normalize_place_text s :=
  congrArg String.mk (normTextL_idem s.data h)

/-- Witness for C10 (amended) at `"ljuniversity"`. -/
theorem normalize_idempotent_no_jam_witness :
    _normalize_place_text (_normalize_place_text "ljuniversity")
      = _normalize_place_text "ljuniversity" :=
  normalize_idempotent_no_jam "ljuniversity" (by decide)

end TrashSort


